import Mathlib

/-!
Verification development for an MCP proxy server (aggregation/routing core).

The definitions below are a shallow embedding of the TypeScript sources:
`ProxyService` (backend reconciliation, capability aggregation, request
routing), `ClientFactory` (`createMcpClients` / `createClient` with the
retry loop), and `HttpService` (the SSE session registry).  JavaScript
`Map` objects are embedded as association lists preserving insertion
order (`Map.set` replaces in place, else appends; `Map.delete` removes
the key).  JavaScript truthiness on strings (`s || d` falls back on the
empty string as well as on `undefined`) is embedded by `jsOrString` /
`jsOrOption`.  Backend behaviour (transport construction, handshake
outcomes, discovery responses) is abstracted as a `World` assigning a
`BackendBehavior` to each backend name; the proxy code never inspects
anything else about a backend.
-/

namespace McpProxy

/-- JavaScript `a || d` for a possibly-undefined string `a`:
falls back to `d` when `a` is `undefined` or the empty string. -/
def jsOrString (a : Option String) (d : String) : String :=
  match a with
  | some s => if s = "" then d else s
  | none => d

/-- JavaScript `a || b` where both sides are possibly-undefined strings;
returns `b` unchanged when `a` is falsy. -/
def jsOrOption (a : Option String) (b : Option String) : Option String :=
  match a with
  | some s => if s = "" then b else some s
  | none => b

/-- JavaScript truthiness filter for an optional string: the empty string
is falsy, so `if (s)` sees `some ""` as absent. -/
def jsTruthyString (a : Option String) : Option String :=
  match a with
  | some s => if s = "" then none else some s
  | none => none

/-- `Map.get` on an insertion-ordered association list. -/
def listMapGet {α : Type} (k : String) : List (String × α) → Option α
  | [] => none
  | (k', v) :: rest => if k' = k then some v else listMapGet k rest

/-- `Map.set` on an insertion-ordered association list: replaces in place
when the key exists, appends otherwise. -/
def listMapSet {α : Type} (k : String) (v : α) : List (String × α) → List (String × α)
  | [] => [(k, v)]
  | (k', v') :: rest => if k' = k then (k, v) :: rest else (k', v') :: listMapSet k v rest

/-- `Map.delete` on an association list (drops every binding of the key). -/
def listMapRemove {α : Type} (k : String) (l : List (String × α)) : List (String × α) :=
  l.filter (fun p => decide (p.1 ≠ k))

/-- A JSON `active` field of a backend descriptor: the configuration may
hold a boolean or a string. -/
inductive ActiveValue : Type
  | boolVal (b : Bool)
  | strVal (s : String)
deriving DecidableEq

/-- JavaScript `String(x)` on the (possibly-undefined) `active` value. -/
def activeAsString : Option ActiveValue → String
  | none => "undefined"
  | some (.boolVal true) => "true"
  | some (.boolVal false) => "false"
  | some (.strVal s) => s

/-- ASCII lower-casing of one character (the fragment of
`toLowerCase()` relevant to the `"false"` comparison). -/
def charLower (c : Char) : Char :=
  if 65 ≤ c.toNat ∧ c.toNat ≤ 90 then Char.ofNat (c.toNat + 32) else c

/-- ASCII lower-casing of a string, embedding `toLowerCase()`. -/
def strLower (s : String) : String := String.mk (s.data.map charLower)

/-- A backend transport descriptor as used by `updateBackendConnections`.
Only the `active` flag is inspected by the reconciliation code itself;
transport construction and handshakes are abstracted into the `World`. -/
structure TransportConfig : Type where
  active : Option ActiveValue
deriving DecidableEq

/-- `isActive` test of `updateBackendConnections`:
`!(serverConf.active === false || String(serverConf.active).toLowerCase() === 'false')`. -/
def isActiveConf (c : TransportConfig) : Bool :=
  !(decide (c.active = some (.boolVal false)) || decide (strLower (activeAsString c.active) = "false"))

/-- The server configuration: `mcpServers`, an insertion-ordered record of
backend key to transport descriptor. -/
structure Config : Type where
  mcpServers : List (String × TransportConfig)
deriving DecidableEq

/-- A per-qualified-name tool override from `tool_config.json`. -/
structure ToolOverride : Type where
  enabled : Option Bool := none
  exposedName : Option String := none
  exposedDescription : Option String := none
deriving DecidableEq

/-- The tool configuration: overrides keyed by qualified tool name. -/
structure ToolConfig : Type where
  tools : List (String × ToolOverride)
deriving DecidableEq

/-- A tool descriptor as returned by a backend's `tools/list`. -/
structure Tool : Type where
  name : String
  description : Option String
  inputSchema : String
deriving DecidableEq

/-- A resource descriptor as returned by `resources/list` (only the URI is
used as an aggregation key). -/
structure Resource : Type where
  uri : String
deriving DecidableEq

/-- A prompt descriptor as returned by `prompts/list` (only the name is
used as an aggregation key). -/
structure Prompt : Type where
  name : String
deriving DecidableEq

/-- A live backend connection handle (`ConnectedClient` in `ClientFactory`):
the backend key plus an identity for the underlying client handle, so that
reuse versus reconnection is observable. -/
structure ConnectedClient : Type where
  name : String
  handleId : Nat
deriving DecidableEq

/-- A `toolToClientMap` entry: owning connection and the original tool. -/
structure ToolMapEntry : Type where
  client : ConnectedClient
  toolInfo : Tool
deriving DecidableEq

/-- The three routing maps rebuilt by every aggregation pass. -/
structure RoutingMaps : Type where
  toolMap : List (String × ToolMapEntry)
  resourceMap : List (String × ConnectedClient)
  promptMap : List (String × ConnectedClient)
deriving DecidableEq

/-- The mutable state of `ProxyService`. -/
structure ProxyState : Type where
  currentConnectedClients : List ConnectedClient
  toolToClientMap : List (String × ToolMapEntry)
  resourceToClientMap : List (String × ConnectedClient)
  promptToClientMap : List (String × ConnectedClient)
  currentToolConfig : ToolConfig
deriving DecidableEq

/-- The state of a freshly constructed `ProxyService`. -/
def initialProxyState : ProxyState :=
  { currentConnectedClients := []
    toolToClientMap := []
    resourceToClientMap := []
    promptToClientMap := []
    currentToolConfig := { tools := [] } }

/-- The three capability kinds discovered per backend. -/
inductive CapKind : Type
  | tools
  | resources
  | prompts
deriving DecidableEq

/-- Outcome of one discovery request against one backend: a successful
item list, the protocol's method-not-found error (`McpError` with code
`-32601`), or any other failure carrying its message. -/
inductive DiscoveryOutcome (α : Type) : Type
  | ok (items : List α)
  | methodNotFound
  | otherError (msg : String)
deriving DecidableEq

/-- Observable log/side-effect events of the embedded code. -/
inductive LogEvent : Type
  | cleanedUp (name : String)
  | transportUnavailable (name : String)
  | connectAttemptFailed (name : String) (attempt : Nat)
  | closedFailedClient (name : String)
  | sleptMs (name : String) (ms : Nat)
  | connected (name : String)
  | fetchError (kind : CapKind) (name : String) (msg : String)
deriving DecidableEq

/-- Everything the proxy can observe about one backend: whether transport
construction succeeds, whether the handshake of attempt `i` succeeds, and
the three discovery responses. -/
structure BackendBehavior : Type where
  transportOk : Bool
  connectOk : Nat → Bool
  toolsList : DiscoveryOutcome Tool
  resourcesList : DiscoveryOutcome Resource
  promptsList : DiscoveryOutcome Prompt

/-- The environment: backend behaviour keyed by backend name. -/
def World : Type := String → BackendBehavior

/-! ## ClientFactory: `createClient` / `createMcpClients` -/

/-- `const retries = 3` in `createMcpClients`. -/
def connectRetries : Nat := 3

/-- `const waitFor = 2500` (milliseconds) in `createMcpClients`. -/
def connectDelayMs : Nat := 2500

/-- The `while (retry)` connection loop of `createMcpClients` for one
backend: attempt the handshake; on success push the connected client and
stop; on failure increment the counter, and while attempts remain close
the failed client handle, wait `connectDelayMs`, and retry.  `fuel` is
`connectRetries - attempt` and only bounds the recursion; the loop's own
exit condition `count < retries` is what stops it. -/
def connectLoop (beh : BackendBehavior) (name : String) (clientId : Nat) :
    Nat → Nat → Option ConnectedClient × List LogEvent
  | 0, _ => (none, [])
  | fuel + 1, attempt =>
    if beh.connectOk attempt then
      (some { name := name, handleId := clientId }, [LogEvent.connected name])
    else
      if attempt + 1 < connectRetries then
        let rest := connectLoop beh name clientId fuel (attempt + 1)
        (rest.1,
          LogEvent.connectAttemptFailed name attempt ::
          LogEvent.closedFailedClient name ::
          LogEvent.sleptMs name connectDelayMs :: rest.2)
      else
        (none, [LogEvent.connectAttemptFailed name attempt])

/-- `createMcpClients`: walk the backend record in order; for each entry
build the transport (outcome abstracted by `transportOk`; on failure the
backend is skipped without retry) and run the connection loop.  Returns
the connected clients in order, the next fresh handle id, and the event
trace.  One backend exhausting its retries does not stop the walk. -/
def createMcpClients (world : World) :
    List (String × TransportConfig) → Nat → List ConnectedClient × Nat × List LogEvent
  | [], nextId => ([], nextId, [])
  | (name, _) :: rest, nextId =>
    let beh := world name
    if beh.transportOk then
      let r := connectLoop beh name nextId connectRetries 0
      match r.1 with
      | some c =>
        let tail := createMcpClients world rest (nextId + 1)
        (c :: tail.1, tail.2.1, r.2 ++ tail.2.2)
      | none =>
        let tail := createMcpClients world rest nextId
        (tail.1, tail.2.1, r.2 ++ tail.2.2)
    else
      let tail := createMcpClients world rest nextId
      (tail.1, tail.2.1, LogEvent.transportUnavailable name :: tail.2.2)

/-- Whether the connection loop for `name` ever succeeds: transport
construction works and one of the `connectRetries` handshake attempts
succeeds. -/
def connectSucceeds (world : World) (name : String) : Bool :=
  (world name).transportOk &&
    ((world name).connectOk 0 || (world name).connectOk 1 || (world name).connectOk 2)

/-! ## ProxyService: aggregation -/

/-- `` `${connectedClient.name}--${tool.name}` `` -/
def qualifiedName (backendName toolName : String) : String :=
  backendName ++ "--" ++ toolName

/-- `const isEnabled = !toolSettings || toolSettings.enabled !== false`. -/
def isEnabledTool (tcfg : ToolConfig) (q : String) : Bool :=
  match listMapGet q tcfg.tools with
  | none => true
  | some s => s.enabled != some false

/-- The `for (const tool of result.tools)` body: insert each enabled tool
under its qualified name. -/
def addToolsFrom (tcfg : ToolConfig) (c : ConnectedClient) (tools : List Tool)
    (m : List (String × ToolMapEntry)) : List (String × ToolMapEntry) :=
  tools.foldl
    (fun acc tool =>
      let q := qualifiedName c.name tool.name
      if isEnabledTool tcfg q then listMapSet q { client := c, toolInfo := tool } acc else acc)
    m

/-- The per-backend body of the aggregation loop in
`updateBackendConnections`: three independent discovery calls; a
successful one inserts its entries, a failing one (either kind)
contributes nothing to the maps. -/
def aggStepMaps (world : World) (tcfg : ToolConfig) (m : RoutingMaps) (c : ConnectedClient) :
    RoutingMaps :=
  let m1 :=
    match (world c.name).toolsList with
    | .ok ts => { m with toolMap := addToolsFrom tcfg c ts m.toolMap }
    | _ => m
  let m2 :=
    match (world c.name).resourcesList with
    | .ok rs => { m1 with resourceMap := rs.foldl (fun acc r => listMapSet r.uri c acc) m1.resourceMap }
    | _ => m1
  match (world c.name).promptsList with
  | .ok ps => { m2 with promptMap := ps.foldl (fun acc p => listMapSet p.name c acc) m2.promptMap }
  | _ => m2

/-- The error logging of the aggregation loop for one backend: a
`methodNotFound` discovery failure (an `McpError` with code `-32601`) is
silently ignored; any other failure logs a fetch error for that backend
and kind. -/
def discoveryLogOf (world : World) (c : ConnectedClient) : List LogEvent :=
  (match (world c.name).toolsList with
   | .otherError msg => [LogEvent.fetchError CapKind.tools c.name msg]
   | _ => []) ++
  (match (world c.name).resourcesList with
   | .otherError msg => [LogEvent.fetchError CapKind.resources c.name msg]
   | _ => []) ++
  (match (world c.name).promptsList with
   | .otherError msg => [LogEvent.fetchError CapKind.prompts c.name msg]
   | _ => [])

/-- The routing maps `[]`/`[]`/`[]` right after the three `clear()` calls. -/
def emptyMaps : RoutingMaps :=
  { toolMap := [], resourceMap := [], promptMap := [] }

/-- The full aggregation pass: clear the three maps, then fold the
per-backend step over the connected clients in order. -/
def aggregateMaps (world : World) (tcfg : ToolConfig) (clients : List ConnectedClient) :
    RoutingMaps :=
  clients.foldl (aggStepMaps world tcfg) emptyMaps

/-- The error log emitted by the aggregation pass. -/
def aggregateLog (world : World) (clients : List ConnectedClient) : List LogEvent :=
  (clients.map (discoveryLogOf world)).flatten

/-! ## ProxyService: reconciliation -/

/-- The active subset of the configured backends, in configuration order. -/
def activeServers (cfg : Config) : List (String × TransportConfig) :=
  cfg.mcpServers.filter (fun p => isActiveConf p.2)

/-- The result of the connection-diff phase of `updateBackendConnections`. -/
structure ReconcilePrep : Type where
  clients : List ConnectedClient
  nextId : Nat
  log : List LogEvent
deriving DecidableEq

/-- The `newClientKeys` of `updateBackendConnections`: the active backend
keys of the new configuration. -/
def newClientKeysOf (cfg : Config) : List String :=
  (activeServers cfg).map (fun p => p.1)

/-- The `clientsToRemove` of `updateBackendConnections`. -/
def clientsToRemoveOf (st : ProxyState) (cfg : Config) : List ConnectedClient :=
  st.currentConnectedClients.filter (fun c => decide (c.name ∉ newClientKeysOf cfg))

/-- The `clientsToKeep` of `updateBackendConnections`. -/
def clientsToKeepOf (st : ProxyState) (cfg : Config) : List ConnectedClient :=
  st.currentConnectedClients.filter (fun c => decide (c.name ∈ newClientKeysOf cfg))

/-- The `keysToAdd` of `updateBackendConnections`. -/
def keysToAddOf (st : ProxyState) (cfg : Config) : List String :=
  (newClientKeysOf cfg).filter
    (fun k => decide (k ∉ st.currentConnectedClients.map (fun c => c.name)))

/-- The `configToAdd` record handed to `createMcpClients`. -/
def configToAddOf (st : ProxyState) (cfg : Config) : List (String × TransportConfig) :=
  (activeServers cfg).filter (fun p => decide (p.1 ∈ keysToAddOf st cfg))

/-- The connection-diff phase of `updateBackendConnections`: clean up
clients absent from the new active set, keep the rest untouched, and run
`createMcpClients` over the newly added keys only. -/
def reconcileClients (world : World) (st : ProxyState) (cfg : Config) (nextId : Nat) :
    ReconcilePrep :=
  let r := createMcpClients world (configToAddOf st cfg) nextId
  { clients := clientsToKeepOf st cfg ++ r.1
    nextId := r.2.1
    log := (clientsToRemoveOf st cfg).map (fun c => LogEvent.cleanedUp c.name) ++ r.2.2 }

/-- The result of one `updateBackendConnections` run. -/
structure UpdateResult : Type where
  state : ProxyState
  nextId : Nat
  log : List LogEvent
deriving DecidableEq

/-- `updateBackendConnections(newServerConfig, newToolConfig)`: store the
new tool configuration, diff and update the connection set, then rebuild
the three routing maps from scratch over the complete new client list. -/
def updateBackendConnections (world : World) (st : ProxyState) (cfg : Config)
    (tcfg : ToolConfig) (nextId : Nat) : UpdateResult :=
  let prep := reconcileClients world st cfg nextId
  let maps := aggregateMaps world tcfg prep.clients
  { state :=
      { currentConnectedClients := prep.clients
        toolToClientMap := maps.toolMap
        resourceToClientMap := maps.resourceMap
        promptToClientMap := maps.promptMap
        currentToolConfig := tcfg }
    nextId := prep.nextId
    log := prep.log ++ aggregateLog world prep.clients }

/-! ## ProxyService: request handlers -/

/-- The exposed name of the tool with qualified name `q`:
`toolOverrides[key]?.exposedName || key`. -/
def exposedNameOf (tcfg : ToolConfig) (q : String) : String :=
  jsOrString ((listMapGet q tcfg.tools).bind (fun o => o.exposedName)) q

/-- The exposed description of the tool with qualified name `q`:
`overrideSettings?.exposedDescription || toolInfo.description`. -/
def exposedDescriptionOf (tcfg : ToolConfig) (q : String) (orig : Option String) :
    Option String :=
  jsOrOption ((listMapGet q tcfg.tools).bind (fun o => o.exposedDescription)) orig

/-- `_handleListTools`: one entry per tool-map binding, carrying the
override's exposed name/description when present (JS-truthy) and the
original input schema unchanged. -/
def handleListTools (st : ProxyState) : List Tool :=
  st.toolToClientMap.map
    (fun p =>
      { name := exposedNameOf st.currentToolConfig p.1
        description := exposedDescriptionOf st.currentToolConfig p.1 p.2.toolInfo.description
        inputSchema := p.2.toolInfo.inputSchema })

/-- The reverse-mapping scan of `_handleCallTool`: the first tool-map
binding whose current exposed name equals the requested name. -/
def findRoute (tcfg : ToolConfig) (requested : String) :
    List (String × ToolMapEntry) → Option (String × ToolMapEntry)
  | [] => none
  | p :: rest =>
    if exposedNameOf tcfg p.1 = requested then some p else findRoute tcfg requested rest

/-- The request `_handleCallTool` forwards to the owning backend:
`tools/call` with the backend's local tool name and `args || {}`. -/
structure ForwardedCall : Type where
  client : ConnectedClient
  toolName : String
  callArguments : String
deriving DecidableEq

/-- Outcome of `_handleCallTool`: a forwarded backend call, or the thrown
`Unknown or disabled tool` error. -/
inductive CallToolResult : Type
  | forwarded (call : ForwardedCall)
  | unknownTool (message : String)
deriving DecidableEq

/-- `_handleCallTool`: scan the tool map in insertion order for the first
entry whose exposed name matches, and forward to its owning backend with
the original (local) tool name; otherwise throw. -/
def handleCallTool (st : ProxyState) (requested : String) (args : Option String) :
    CallToolResult :=
  match findRoute st.currentToolConfig requested st.toolToClientMap with
  | some p =>
    CallToolResult.forwarded
      { client := p.2.client
        toolName := p.2.toolInfo.name
        callArguments := args.getD "\x7b\x7d" }
  | none => CallToolResult.unknownTool ("Unknown or disabled tool: " ++ requested)

/-- One record of the admin state export. -/
structure ProxyStateTool : Type where
  name : String
  serverName : String
  description : Option String
deriving DecidableEq

/-- `getCurrentProxyState`: one record per tool-map entry, built from
`toolInfo.name`, `client?.name || 'Unknown'` and `toolInfo.description`. -/
def getCurrentProxyState (st : ProxyState) : List ProxyStateTool :=
  st.toolToClientMap.map
    (fun p =>
      { name := p.2.toolInfo.name
        serverName := jsOrString (some p.2.client.name) "Unknown"
        description := p.2.toolInfo.description })

/-! ## Interleaving observations of a reconciliation

`updateBackendConnections` is `async`: each backend discovery request is
an `await`, and the three routing maps are mutated in place (`clear()`
then incremental `set`) between those suspension points.  A concurrent
reader (any request handler) can run at every suspension point and reads
the maps as they are at that moment.  `reconcileObservations` lists the
routing-map generations visible at the suspension points of one
`updateBackendConnections` run: the pre-reconciliation maps (still in
place during cleanup/connection awaits), then — after the synchronous
`clear()`s — the partially rebuilt maps before each backend's discovery
round. -/

/-- The map states visible before each backend of `clients` is discovered,
starting from `m`, ending with the fully rebuilt maps. -/
def aggPrefixMaps (world : World) (tcfg : ToolConfig) :
    RoutingMaps → List ConnectedClient → List RoutingMaps
  | m, [] => [m]
  | m, c :: cs => m :: aggPrefixMaps world tcfg (aggStepMaps world tcfg m c) cs

/-- The three routing maps of a proxy state, as one generation. -/
def routingOf (st : ProxyState) : RoutingMaps :=
  { toolMap := st.toolToClientMap
    resourceMap := st.resourceToClientMap
    promptMap := st.promptToClientMap }

/-- All routing-map generations observable by concurrent readers during
one `updateBackendConnections` run. -/
def reconcileObservations (world : World) (st : ProxyState) (cfg : Config)
    (tcfg : ToolConfig) (nextId : Nat) : List RoutingMaps :=
  routingOf st ::
    aggPrefixMaps world tcfg emptyMaps (reconcileClients world st cfg nextId).clients

/-! ## HttpService: SSE session registry -/

/-- A server-side SSE transport: its server-assigned session id plus an
identity for the underlying handle. -/
structure SseTransport : Type where
  sessionId : String
  handleId : Nat
deriving DecidableEq

/-- Result of `_handleSse`: the updated registry, the transports that were
closed, and the HTTP error status when the stream could not be
established (`none` when the stream is up). -/
structure SseResult : Type where
  registry : List (String × SseTransport)
  closed : List SseTransport
  httpStatus : Option Nat
deriving DecidableEq

/-- `_handleSse` (post-authentication): if the client claims a session id
that already has a registered transport, close and remove that transport;
then create a new transport and register it under its own server-assigned
session id; on a missing session id or a failed `connect`, unregister and
close the new transport and answer 500.  `newTransport` stands for the
freshly constructed `SSEServerTransport` (its `sessionId` is the
server-assigned id); `connectOk` abstracts `_mcpServer.connect`. -/
def handleSse (registry : List (String × SseTransport))
    (sessionIdFromClientQuery : Option String) (newTransport : SseTransport)
    (connectOk : Bool) : SseResult :=
  let pre : List (String × SseTransport) × List SseTransport :=
    match jsTruthyString sessionIdFromClientQuery with
    | some c =>
      match listMapGet c registry with
      | some old => (listMapRemove c registry, [old])
      | none => (registry, [])
    | none => (registry, [])
  if newTransport.sessionId = "" then
    { registry := pre.1, closed := pre.2 ++ [newTransport], httpStatus := some 500 }
  else
    let reg2 := listMapSet newTransport.sessionId newTransport pre.1
    if connectOk then
      { registry := reg2, closed := pre.2, httpStatus := none }
    else
      { registry := listMapRemove newTransport.sessionId reg2
        closed := pre.2 ++ [newTransport]
        httpStatus := some 500 }

/-- Outcome of `_handleMessage`: 400 on a missing/empty session id, 404
when no transport is registered under the id, else the post is handed to
the registered transport. -/
inductive MessageOutcome : Type
  | missingSession (httpStatus : Nat)
  | sessionNotFound (httpStatus : Nat)
  | handledBy (t : SseTransport)
deriving DecidableEq

/-- `_handleMessage`: resolve the session id (JS-falsy ids count as
missing) and dispatch to the registered SSE transport. -/
def handleMessage (registry : List (String × SseTransport))
    (sessionIdParam : Option String) : MessageOutcome :=
  match jsTruthyString sessionIdParam with
  | none => MessageOutcome.missingSession 400
  | some sid =>
    match listMapGet sid registry with
    | none => MessageOutcome.sessionNotFound 404
    | some t => MessageOutcome.handledBy t

/-! ## World modifiers (for stating per-backend discovery properties) -/

/-- Replace backend `b`'s `tools/list` outcome. -/
def setToolsList (w : World) (b : String) (r : DiscoveryOutcome Tool) : World :=
  fun n => if n = b then { w n with toolsList := r } else w n

/-- Replace backend `b`'s `resources/list` outcome. -/
def setResourcesList (w : World) (b : String) (r : DiscoveryOutcome Resource) : World :=
  fun n => if n = b then { w n with resourcesList := r } else w n

/-- Replace backend `b`'s `prompts/list` outcome. -/
def setPromptsList (w : World) (b : String) (r : DiscoveryOutcome Prompt) : World :=
  fun n => if n = b then { w n with promptsList := r } else w n

/-! ## Spec-side statements (used to compare claims against the code)

Each `ClaimSpec` definition below transcribes a claim of the
specification in its literal, fully universal reading, to be compared
against the behaviour of the embedded code. -/

/-- Spec reading of the override round trip: every tool-map entry whose
override sets an exposed name `x` is listed under `x` (with the
override's description if present, else the original), and calling `x`
forwards to that entry's backend with its local tool name. -/
def overrideRoundTripSpecAt (st : ProxyState) : Prop :=
  ∀ (q : String) (entry : ToolMapEntry) (x : String) (args : Option String),
    (q, entry) ∈ st.toolToClientMap →
    (listMapGet q st.currentToolConfig.tools).bind (fun o => o.exposedName) = some x →
    (∃ t ∈ handleListTools st,
        t.name = x ∧
        t.description = exposedDescriptionOf st.currentToolConfig q entry.toolInfo.description) ∧
      handleCallTool st x args =
        CallToolResult.forwarded
          { client := entry.client
            toolName := entry.toolInfo.name
            callArguments := args.getD "\x7b\x7d" }

/-- Spec reading of reconciliation atomicity: every routing-map generation
observable during a reconciliation is either the complete
pre-reconciliation generation or the complete post-reconciliation one. -/
def atomicSwapSpecAt (world : World) (st : ProxyState) (cfg : Config) (tcfg : ToolConfig)
    (nextId : Nat) : Prop :=
  ∀ m ∈ reconcileObservations world st cfg tcfg nextId,
    m = routingOf st ∨ m = routingOf (updateBackendConnections world st cfg tcfg nextId).state

/-- Spec reading of the disabled-tool property: a tool whose override sets
`enabled = false` is absent from the tool map, absent from `list-tools`,
and calling its qualified name fails with the unknown-tool error. -/
def disabledToolSpecAt (st : ProxyState) : Prop :=
  ∀ (q : String) (o : ToolOverride) (args : Option String),
    listMapGet q st.currentToolConfig.tools = some o →
    o.enabled = some false →
    listMapGet q st.toolToClientMap = none ∧
      (∀ t ∈ handleListTools st, t.name ≠ q) ∧
      handleCallTool st q args = CallToolResult.unknownTool ("Unknown or disabled tool: " ++ q)

/-- The state export as the specification words it: the *exposed* name
(override's `exposedName` when set, else the qualified name) of every
routable tool, with owning backend name and description. -/
def specStateExport (st : ProxyState) : List ProxyStateTool :=
  st.toolToClientMap.map
    (fun p =>
      { name := exposedNameOf st.currentToolConfig p.1
        serverName := p.2.client.name
        description := p.2.toolInfo.description })

/-- Spec reading of the state-export property at one state. -/
def stateExportSpecAt (st : ProxyState) : Prop :=
  getCurrentProxyState st = specStateExport st

/-- Spec reading of qualified-name uniqueness: the qualified name is
injective on (backendName, localToolName) pairs. -/
def qualifiedNameUniqueSpec : Prop :=
  ∀ b1 t1 b2 t2 : String, (b1, t1) ≠ (b2, t2) → qualifiedName b1 t1 ≠ qualifiedName b2 t2

/-! ## Concrete example data -/

/-- A backend that connects on the first attempt and answers discovery
with the given lists. -/
def behConnected (ts : List Tool) (rs : List Resource) (ps : List Prompt) : BackendBehavior :=
  { transportOk := true
    connectOk := fun _ => true
    toolsList := .ok ts
    resourcesList := .ok rs
    promptsList := .ok ps }

/-- A backend whose transport builds but whose handshake always fails. -/
def behUnreachable : BackendBehavior :=
  { transportOk := true
    connectOk := fun _ => false
    toolsList := .ok []
    resourcesList := .ok []
    promptsList := .ok [] }

/-- Example tool `t` of backend `a`. -/
def toolT : Tool := { name := "t", description := some "dt", inputSchema := "st" }

/-- Example tool `u` of backend `b`. -/
def toolU : Tool := { name := "u", description := none, inputSchema := "su" }

/-- Example tool `ping` of backend `srv`. -/
def toolPing : Tool := { name := "ping", description := some "dp", inputSchema := "sp" }

/-- Example tool `pong` of backend `srv`. -/
def toolPong : Tool := { name := "pong", description := none, inputSchema := "sq" }

/-- Two healthy backends `a` (tool `t`) and `b` (tool `u`). -/
def worldAB : World := fun n =>
  if n = "a" then behConnected [toolT] [] []
  else if n = "b" then behConnected [toolU] [] []
  else behUnreachable

/-- Configuration activating backends `a` and `b`. -/
def cfgAB : Config := { mcpServers := [("a", { active := none }), ("b", { active := none })] }

/-- Overrides renaming `b--u` to the exposed name `a--t`, which collides
with the identity exposed name of `a--t`. -/
def tcfgAlias : ToolConfig :=
  { tools := [("b--u", { exposedName := some "a--t" })] }

/-- The proxy state after reconciling `worldAB`/`cfgAB`/`tcfgAlias` from
the initial state. -/
def stAlias : ProxyState :=
  (updateBackendConnections worldAB initialProxyState cfgAB tcfgAlias 0).state

/-- One healthy backend `srv` exposing `ping` and `pong`. -/
def worldSrv : World := fun n =>
  if n = "srv" then behConnected [toolPing, toolPong] [] [] else behUnreachable

/-- Configuration activating backend `srv` only. -/
def cfgSrv : Config := { mcpServers := [("srv", { active := none })] }

/-- Overrides disabling `srv--ping` while aliasing `srv--pong` to the
exposed name `srv--ping`. -/
def tcfgDisabledAlias : ToolConfig :=
  { tools :=
      [("srv--ping", { enabled := some false }),
       ("srv--pong", { exposedName := some "srv--ping" })] }

/-- The proxy state after reconciling `worldSrv`/`cfgSrv`/
`tcfgDisabledAlias` from the initial state. -/
def stDisabledAlias : ProxyState :=
  (updateBackendConnections worldSrv initialProxyState cfgSrv tcfgDisabledAlias 0).state

/-- The empty tool configuration (no overrides). -/
def tcfgEmpty : ToolConfig := { tools := [] }

/-- The proxy state after reconciling `worldSrv`/`cfgSrv` with no
overrides from the initial state. -/
def stSrv : ProxyState :=
  (updateBackendConnections worldSrv initialProxyState cfgSrv tcfgEmpty 0).state

/-- Overrides disabling `srv--ping` only (no aliasing). -/
def tcfgDisabledOnly : ToolConfig :=
  { tools := [("srv--ping", { enabled := some false })] }

/-- The proxy state after reconciling `worldSrv`/`cfgSrv`/
`tcfgDisabledOnly` from the initial state. -/
def stDisabledOnly : ProxyState :=
  (updateBackendConnections worldSrv initialProxyState cfgSrv tcfgDisabledOnly 0).state

/-- Overrides renaming `srv--ping` to the exposed name `fastping`. -/
def tcfgRenamed : ToolConfig :=
  { tools := [("srv--ping", { exposedName := some "fastping" })] }

/-- The proxy state after reconciling `worldSrv`/`cfgSrv`/`tcfgRenamed`
from the initial state. -/
def stRenamed : ProxyState :=
  (updateBackendConnections worldSrv initialProxyState cfgSrv tcfgRenamed 0).state

/-! ## Association-list lemmas -/

theorem listMapGet_set_self {α : Type} (k : String) (v : α) (l : List (String × α)) :
    listMapGet k (listMapSet k v l) = some v := by
  induction l with
  | nil => simp [listMapSet, listMapGet]
  | cons p rest ih =>
    by_cases h : p.1 = k
    · simp [listMapSet, listMapGet, h]
    · simp [listMapSet, listMapGet, h, ih]

theorem listMapGet_set_ne {α : Type} {k k' : String} (h : k' ≠ k) (v : α)
    (l : List (String × α)) : listMapGet k (listMapSet k' v l) = listMapGet k l := by
  induction l with
  | nil => simp [listMapSet, listMapGet, h]
  | cons p rest ih =>
    by_cases hp : p.1 = k'
    · simp [listMapSet, listMapGet, hp, h, ih]
    · simp only [listMapSet, if_neg hp, listMapGet]
      by_cases hpk : p.1 = k
      · simp [hpk]
      · simp [hpk, ih]

theorem listMapGet_remove_self {α : Type} (k : String) (l : List (String × α)) :
    listMapGet k (listMapRemove k l) = none := by
  induction l with
  | nil => rfl
  | cons p rest ih =>
    by_cases h : p.1 = k
    · simpa [listMapRemove, List.filter_cons, h] using ih
    · simpa [listMapRemove, List.filter_cons, h, listMapGet] using ih

theorem listMapGet_eq_none_iff {α : Type} (k : String) (l : List (String × α)) :
    listMapGet k l = none ↔ ∀ p ∈ l, p.1 ≠ k := by
  induction l with
  | nil => simp [listMapGet]
  | cons p rest ih =>
    by_cases h : p.1 = k
    · simp [listMapGet, h]
    · simp [listMapGet, h, ih]

theorem mem_listMapSet {α : Type} (k : String) (v : α) (l : List (String × α)) :
    ∀ p ∈ listMapSet k v l, p = (k, v) ∨ p ∈ l := by
  induction l with
  | nil => simp [listMapSet]
  | cons q rest ih =>
    intro p hp
    by_cases h : q.1 = k
    · have hp' : p ∈ (k, v) :: rest := by
        simpa only [listMapSet, if_pos h] using hp
      rcases List.mem_cons.mp hp' with h1 | h1
      · exact Or.inl h1
      · exact Or.inr (List.mem_cons_of_mem q h1)
    · have hp' : p ∈ q :: listMapSet k v rest := by
        simpa only [listMapSet, if_neg h] using hp
      rcases List.mem_cons.mp hp' with h1 | h1
      · exact Or.inr (h1 ▸ List.mem_cons_self q rest)
      · rcases ih p h1 with h2 | h2
        · exact Or.inl h2
        · exact Or.inr (List.mem_cons_of_mem q h2)

theorem listMapSet_eq_append {α : Type} (k : String) (v : α) (l : List (String × α))
    (h : ∀ p ∈ l, p.1 ≠ k) : listMapSet k v l = l ++ [(k, v)] := by
  induction l with
  | nil => rfl
  | cons p rest ih =>
    have hp : p.1 ≠ k := h p (List.mem_cons_self p rest)
    simp only [listMapSet, if_neg hp, List.cons_append, List.cons.injEq, true_and]
    exact ih (fun q hq => h q (List.mem_cons_of_mem p hq))

/-! ## Qualified-name lemmas -/

theorem qualifiedName_inj_backend {b1 b2 t : String}
    (h : qualifiedName b1 t = qualifiedName b2 t) : b1 = b2 := by
  unfold qualifiedName at h
  have h2 : (b1 ++ "--" ++ t).data = (b2 ++ "--" ++ t).data := congrArg String.data h
  rw [String.data_append, String.data_append, String.data_append, String.data_append] at h2
  have h3 := List.append_cancel_right h2
  exact String.ext (List.append_cancel_right h3)

theorem qualifiedName_inj_tool {b t1 t2 : String}
    (h : qualifiedName b t1 = qualifiedName b t2) : t1 = t2 := by
  unfold qualifiedName at h
  have h2 : (b ++ "--" ++ t1).data = (b ++ "--" ++ t2).data := congrArg String.data h
  rw [String.data_append, String.data_append, String.data_append, String.data_append] at h2
  exact String.ext (List.append_cancel_left h2)

/-! ## C8: qualified-name uniqueness -/

/-- C8 counterexample: joint injectivity of the qualified-name scheme
fails — the distinct pairs `("a", "b--t")` and `("a--b", "t")` produce the
same qualified name `"a--b--t"`. -/
theorem qualifiedName_unique_counterexample : ¬ qualifiedNameUniqueSpec := by
  intro h
  exact h "a" "b--t" "a--b" "t" (by decide) (by decide)

/-- C8 (amended): the qualified name `<backendName>--<localToolName>` is
injective in each argument separately — for the same tool name, distinct
backend names give distinct qualified names, and for the same backend,
distinct tool names give distinct qualified names.  (Joint injectivity
over arbitrary pairs fails when names themselves contain the `--`
separator, per the counterexample.) -/
theorem qualifiedName_separately_injective (n1 n2 t1 t2 : String)
    (hb : n1 ≠ n2) (ht : t1 ≠ t2) :
    qualifiedName n1 t1 ≠ qualifiedName n2 t1 ∧ qualifiedName n1 t1 ≠ qualifiedName n1 t2 :=
  ⟨fun h => hb (qualifiedName_inj_backend h),
   fun h => ht (qualifiedName_inj_tool h)⟩

/-- C8 witness at concrete names. -/
theorem qualifiedName_separately_injective_witness :
    qualifiedName "a" "t" ≠ qualifiedName "b" "t" ∧
      qualifiedName "a" "t" ≠ qualifiedName "a" "u" :=
  qualifiedName_separately_injective "a" "b" "t" "u" (by decide) (by decide)

/-! ## C9: SSE session replacement -/

/-- C9: when a new event-stream connection claims a session id that is
already registered, the registered transport is closed and removed, the
new transport is registered under its fresh server-assigned session id,
and a subsequent message post carrying the old id (or any id without a
registered transport) yields the 404 session-not-found outcome and is
handed to no registered transport. -/
theorem sse_session_replacement (registry : List (String × SseTransport))
    (oldId : String) (tOld newT : SseTransport)
    (hold : listMapGet oldId registry = some tOld)
    (holdne : oldId ≠ "")
    (hfresh : newT.sessionId ≠ oldId)
    (hnid : newT.sessionId ≠ "") :
    tOld ∈ (handleSse registry (some oldId) newT true).closed ∧
      listMapGet oldId (handleSse registry (some oldId) newT true).registry = none ∧
      listMapGet newT.sessionId (handleSse registry (some oldId) newT true).registry =
        some newT ∧
      handleMessage (handleSse registry (some oldId) newT true).registry (some oldId) =
        MessageOutcome.sessionNotFound 404 ∧
      (∀ sid : String, sid ≠ "" →
        listMapGet sid (handleSse registry (some oldId) newT true).registry = none →
        handleMessage (handleSse registry (some oldId) newT true).registry (some sid) =
          MessageOutcome.sessionNotFound 404) := by
  have hres : handleSse registry (some oldId) newT true =
      { registry := listMapSet newT.sessionId newT (listMapRemove oldId registry)
        closed := [tOld]
        httpStatus := none } := by
    simp [handleSse, jsTruthyString, holdne, hold, hnid]
  rw [hres]
  have hgetOld :
      listMapGet oldId (listMapSet newT.sessionId newT (listMapRemove oldId registry)) =
        none := by
    rw [listMapGet_set_ne hfresh, listMapGet_remove_self]
  refine ⟨List.mem_singleton_self tOld, hgetOld, listMapGet_set_self _ _ _, ?_, ?_⟩
  · simp [handleMessage, jsTruthyString, holdne, hgetOld]
  · intro sid hsid hget
    simp [handleMessage, jsTruthyString, hsid, hget]

/-- C9 witness: replacing claimed id `"abc"` with a transport whose fresh
server id is `"uuid1"`. -/
theorem sse_session_replacement_witness :
    let r := handleSse [("abc", { sessionId := "abc", handleId := 0 })] (some "abc")
      { sessionId := "uuid1", handleId := 1 } true
    ({ sessionId := "abc", handleId := 0 } : SseTransport) ∈ r.closed ∧
      listMapGet "abc" r.registry = none ∧
      listMapGet "uuid1" r.registry =
        some { sessionId := "uuid1", handleId := 1 } ∧
      handleMessage r.registry (some "abc") = MessageOutcome.sessionNotFound 404 := by
  have h := sse_session_replacement [("abc", { sessionId := "abc", handleId := 0 })]
    "abc" { sessionId := "abc", handleId := 0 } { sessionId := "uuid1", handleId := 1 }
    (by decide) (by decide) (by decide) (by decide)
  exact ⟨h.1, h.2.1, h.2.2.1, h.2.2.2.1⟩

/-! ## C10: first-match resolution of exposed names -/

theorem findRoute_eq_of_first (tcfg : ToolConfig) (x : String) :
    ∀ (l : List (String × ToolMapEntry)) (i : Nat) (hi : i < l.length),
      exposedNameOf tcfg (l.get ⟨i, hi⟩).1 = x →
      (∀ j (hj : j < l.length), j < i → exposedNameOf tcfg (l.get ⟨j, hj⟩).1 ≠ x) →
      findRoute tcfg x l = some (l.get ⟨i, hi⟩) := by
  intro l
  induction l with
  | nil => intro i hi; exact absurd hi (Nat.not_lt_zero i)
  | cons p rest ih =>
    intro i hi hmatch hfirst
    cases i with
    | zero =>
      simp only [List.get] at hmatch
      simp [findRoute, hmatch]
    | succ k =>
      have hp : exposedNameOf tcfg p.1 ≠ x := by
        have := hfirst 0 (Nat.succ_pos rest.length) (Nat.succ_pos k)
        simpa using this
      have hk : k < rest.length := Nat.lt_of_succ_lt_succ hi
      have hrest := ih k hk (by simpa using hmatch)
        (fun j hj hjk =>
          by simpa using hfirst (j + 1) (Nat.succ_lt_succ hj) (Nat.succ_lt_succ hjk))
      simp only [findRoute, if_neg hp]
      simpa using hrest

/-- C10: exposed-name uniqueness is not enforced — `call-tool` scans the
tool map in insertion order and deterministically forwards to the first
entry whose exposed name (override or identity) equals the requested
name; entries at later positions never receive the call even when they
resolve to the same exposed name. -/
theorem callTool_routes_to_first_match (st : ProxyState) (x : String)
    (args : Option String) (i : Nat) (hi : i < st.toolToClientMap.length)
    (hmatch : exposedNameOf st.currentToolConfig (st.toolToClientMap.get ⟨i, hi⟩).1 = x)
    (hfirst : ∀ j (hj : j < st.toolToClientMap.length), j < i →
      exposedNameOf st.currentToolConfig (st.toolToClientMap.get ⟨j, hj⟩).1 ≠ x) :
    handleCallTool st x args =
      CallToolResult.forwarded
        { client := (st.toolToClientMap.get ⟨i, hi⟩).2.client
          toolName := (st.toolToClientMap.get ⟨i, hi⟩).2.toolInfo.name
          callArguments := args.getD "\x7b\x7d" } := by
  rw [handleCallTool,
    findRoute_eq_of_first st.currentToolConfig x st.toolToClientMap i hi hmatch hfirst]

/-- C10 witness: in `stAlias` both map entries expose the name `"a--t"`
(the identity name of `a--t` and the override of `b--u`); the call is
forwarded to the first entry, backend `a`'s local tool `t`. -/
theorem callTool_routes_to_first_match_witness :
    handleCallTool stAlias "a--t" none =
      CallToolResult.forwarded
        { client := { name := "a", handleId := 0 }
          toolName := "t"
          callArguments := "\x7b\x7d" } := by
  have h := callTool_routes_to_first_match stAlias "a--t" none 0 (by decide) (by decide)
    (fun j hj hj0 => absurd hj0 (Nat.not_lt_zero j))
  exact h.trans (by decide)

/-! ## Aggregation composition lemmas -/

theorem connectLoop_first_success (beh : BackendBehavior) (name : String) (id : Nat)
    (h : beh.connectOk 0 = true) :
    connectLoop beh name id connectRetries 0 =
      (some { name := name, handleId := id }, [LogEvent.connected name]) := by
  rw [show connectRetries = 2 + 1 from rfl]
  simp [connectLoop, h]

theorem createMcpClients_single_success (world : World) (name : String)
    (bc : TransportConfig) (n : Nat) (htr : (world name).transportOk = true)
    (hc0 : (world name).connectOk 0 = true) :
    createMcpClients world [(name, bc)] n =
      ([{ name := name, handleId := n }], n + 1, [LogEvent.connected name]) := by
  simp [createMcpClients, htr, connectLoop_first_success (world name) name n hc0]

theorem reconcileClients_initial (world : World) (cfg : Config) (n : Nat) (b : String)
    (bc : TransportConfig) (hact : activeServers cfg = [(b, bc)])
    (htr : (world b).transportOk = true) (hc0 : (world b).connectOk 0 = true) :
    reconcileClients world initialProxyState cfg n =
      { clients := [{ name := b, handleId := n }]
        nextId := n + 1
        log := [LogEvent.connected b] } := by
  simp [reconcileClients, clientsToKeepOf, clientsToRemoveOf, configToAddOf, keysToAddOf,
    newClientKeysOf, hact, initialProxyState,
    createMcpClients_single_success world b bc n htr hc0]

theorem addToolsFrom_eq_append (tcfg : ToolConfig) (c : ConnectedClient) :
    ∀ (ts : List Tool) (m : List (String × ToolMapEntry)),
      (∀ t ∈ ts, isEnabledTool tcfg (qualifiedName c.name t.name) = true) →
      (∀ t ∈ ts, ∀ p ∈ m, p.1 ≠ qualifiedName c.name t.name) →
      (ts.map (fun t => qualifiedName c.name t.name)).Nodup →
      addToolsFrom tcfg c ts m =
        m ++ ts.map (fun t => (qualifiedName c.name t.name, { client := c, toolInfo := t })) := by
  intro ts
  induction ts with
  | nil => intro m _ _ _; simp [addToolsFrom]
  | cons t rest ih =>
    intro m hen hfresh hnodup
    have ht : isEnabledTool tcfg (qualifiedName c.name t.name) = true :=
      hen t (List.mem_cons_self t rest)
    have hset : listMapSet (qualifiedName c.name t.name)
        ({ client := c, toolInfo := t } : ToolMapEntry) m =
        m ++ [(qualifiedName c.name t.name, { client := c, toolInfo := t })] :=
      listMapSet_eq_append _ _ m (fun p hp => hfresh t (List.mem_cons_self t rest) p hp)
    have hstep : addToolsFrom tcfg c (t :: rest) m =
        addToolsFrom tcfg c rest
          (m ++ [(qualifiedName c.name t.name, { client := c, toolInfo := t })]) := by
      simp only [addToolsFrom, List.foldl_cons, ht, if_pos]
      rw [← hset]
    rw [hstep, ih _ (fun u hu => hen u (List.mem_cons_of_mem t hu)) ?hfresh ?hnodup]
    · simp
    case hfresh =>
      intro u hu p hp
      rcases List.mem_append.mp hp with hp | hp
      · exact hfresh u (List.mem_cons_of_mem t hu) p hp
      · have hpq : p.1 = qualifiedName c.name t.name := by
          rcases List.mem_singleton.mp hp with rfl
          rfl
        rw [hpq]
        intro hcontra
        have : qualifiedName c.name t.name ∈ rest.map (fun u => qualifiedName c.name u.name) := by
          rw [hcontra]
          exact List.mem_map_of_mem _ hu
        exact (List.nodup_cons.mp (by simpa using hnodup)).1 this
    case hnodup =>
      exact (List.nodup_cons.mp (by simpa using hnodup)).2

/-! ## C7: state export -/

/-- C7 counterexample: the state export does not return exposed names.
In `stSrv` (backend `srv`, tools `ping`/`pong`, no overrides) the spec
reading demands the qualified names `srv--ping`/`srv--pong`, but
`getCurrentProxyState` returns the local names `ping`/`pong`. -/
theorem stateExport_counterexample : ¬ stateExportSpecAt stSrv := by
  unfold stateExportSpecAt
  decide

/-- C7 (amended): `getCurrentProxyState` returns, for every tool-map
entry, the tool's *local* (original backend-side) name — not the exposed
or qualified name — together with the owning backend's name and the
original description.  Stated as a round trip: aggregating a single
backend `b` with tool list `ts` (distinct names, no overrides) exports
exactly `ts`'s own names, each tagged with `b`. -/
theorem stateExport_returns_local_names (world : World) (cfg : Config) (n : Nat)
    (b : String) (bc : TransportConfig) (ts : List Tool)
    (hact : activeServers cfg = [(b, bc)])
    (htr : (world b).transportOk = true)
    (hc0 : (world b).connectOk 0 = true)
    (hts : (world b).toolsList = DiscoveryOutcome.ok ts)
    (hnodup : (ts.map (fun t => t.name)).Nodup)
    (hb : b ≠ "") :
    getCurrentProxyState (updateBackendConnections world initialProxyState cfg tcfgEmpty n).state =
      ts.map (fun t => { name := t.name, serverName := b, description := t.description }) := by
  have hprep := reconcileClients_initial world cfg n b bc hact htr hc0
  have hqnodup : (ts.map (fun t => qualifiedName b t.name)).Nodup := by
    have hinj : Function.Injective (qualifiedName b) := fun t1 t2 h =>
      qualifiedName_inj_tool h
    have := (hnodup.map hinj :)
    simpa [List.map_map, Function.comp] using this
  have htools : (aggregateMaps world tcfgEmpty [{ name := b, handleId := n }]).toolMap =
      ts.map (fun t =>
        (qualifiedName b t.name,
          ({ client := { name := b, handleId := n }, toolInfo := t } : ToolMapEntry))) := by
    have hadd := addToolsFrom_eq_append tcfgEmpty { name := b, handleId := n } ts []
      (fun t _ => rfl) (fun t _ p hp => absurd hp (List.not_mem_nil p)) hqnodup
    simp only [aggregateMaps, List.foldl_cons, List.foldl_nil, aggStepMaps, hts]
    cases hres : (world b).resourcesList <;> cases hpr : (world b).promptsList <;>
      simp [emptyMaps, hadd]
  show getCurrentProxyState
      { currentConnectedClients := (reconcileClients world initialProxyState cfg n).clients
        toolToClientMap :=
          (aggregateMaps world tcfgEmpty (reconcileClients world initialProxyState cfg n).clients).toolMap
        resourceToClientMap :=
          (aggregateMaps world tcfgEmpty (reconcileClients world initialProxyState cfg n).clients).resourceMap
        promptToClientMap :=
          (aggregateMaps world tcfgEmpty (reconcileClients world initialProxyState cfg n).clients).promptMap
        currentToolConfig := tcfgEmpty } = _
  rw [hprep] at *
  simp only [getCurrentProxyState, htools, List.map_map]
  refine List.map_congr_left (fun t _ => ?_)
  simp [jsOrString, hb]

/-- C7 witness: backend `srv` with tools `ping`/`pong` exports the local
names `ping`/`pong` tagged with `srv`. -/
theorem stateExport_returns_local_names_witness :
    getCurrentProxyState stSrv =
      [{ name := "ping", serverName := "srv", description := some "dp" },
       { name := "pong", serverName := "srv", description := none }] := by
  have h := stateExport_returns_local_names worldSrv cfgSrv 0 "srv" { active := none }
    [toolPing, toolPong] (by decide) (by decide) (by decide) (by decide) (by decide)
    (by decide)
  exact h.trans (by decide)

/-! ## C5: disabled tools -/

theorem aggStepMaps_toolMap (world : World) (tcfg : ToolConfig) (m : RoutingMaps)
    (c : ConnectedClient) :
    (aggStepMaps world tcfg m c).toolMap =
      match (world c.name).toolsList with
      | .ok ts => addToolsFrom tcfg c ts m.toolMap
      | _ => m.toolMap := by
  unfold aggStepMaps
  cases hts : (world c.name).toolsList <;>
    cases hrs : (world c.name).resourcesList <;>
    cases hps : (world c.name).promptsList <;> simp [hts, hrs, hps]

theorem addToolsFrom_preserves_ne (tcfg : ToolConfig) (c : ConnectedClient) (q : String)
    (hdis : isEnabledTool tcfg q = false) :
    ∀ (ts : List Tool) (m : List (String × ToolMapEntry)),
      (∀ p ∈ m, p.1 ≠ q) → ∀ p ∈ addToolsFrom tcfg c ts m, p.1 ≠ q := by
  intro ts
  induction ts with
  | nil => intro m hm; simpa [addToolsFrom] using hm
  | cons t rest ih =>
    intro m hm
    have hstep : addToolsFrom tcfg c (t :: rest) m =
        addToolsFrom tcfg c rest
          (if isEnabledTool tcfg (qualifiedName c.name t.name) then
            listMapSet (qualifiedName c.name t.name) { client := c, toolInfo := t } m
          else m) := by
      simp [addToolsFrom]
    rw [hstep]
    apply ih
    by_cases he : isEnabledTool tcfg (qualifiedName c.name t.name) = true
    · rw [if_pos he]
      intro p hp
      rcases mem_listMapSet _ _ _ p hp with h1 | h1
      · rw [h1]
        show qualifiedName c.name t.name ≠ q
        intro hqq
        rw [hqq] at he
        rw [hdis] at he
        exact Bool.false_ne_true he
      · exact hm p h1
    · rw [if_neg he]
      exact hm

theorem aggregateMaps_no_disabled (world : World) (tcfg : ToolConfig)
    (clients : List ConnectedClient) (q : String) (hdis : isEnabledTool tcfg q = false) :
    ∀ p ∈ (aggregateMaps world tcfg clients).toolMap, p.1 ≠ q := by
  suffices h : ∀ (m : RoutingMaps), (∀ p ∈ m.toolMap, p.1 ≠ q) →
      ∀ p ∈ (clients.foldl (aggStepMaps world tcfg) m).toolMap, p.1 ≠ q by
    exact h emptyMaps (by simp [emptyMaps])
  induction clients with
  | nil => intro m hm; simpa using hm
  | cons c rest ih =>
    intro m hm
    rw [List.foldl_cons]
    apply ih
    rw [aggStepMaps_toolMap]
    cases hts : (world c.name).toolsList with
    | ok ts => exact addToolsFrom_preserves_ne tcfg c q hdis ts m.toolMap hm
    | methodNotFound => exact hm
    | otherError msg => exact hm

theorem findRoute_eq_none (tcfg : ToolConfig) (x : String) :
    ∀ l : List (String × ToolMapEntry),
      (∀ p ∈ l, exposedNameOf tcfg p.1 ≠ x) → findRoute tcfg x l = none := by
  intro l
  induction l with
  | nil => intro _; rfl
  | cons p rest ih =>
    intro h
    rw [findRoute, if_neg (h p (List.mem_cons_self p rest))]
    exact ih (fun p hp => h p (List.mem_cons_of_mem _ hp))

/-- C5 counterexample: in `stDisabledAlias` the override disables
`srv--ping`, yet `call-tool("srv--ping")` does not fail — the enabled
tool `srv--pong`, aliased to the exposed name `srv--ping`, captures the
call. -/
theorem disabledTool_counterexample : ¬ disabledToolSpecAt stDisabledAlias := by
  intro h
  have h2 := (h "srv--ping" { enabled := some false } none (by decide) rfl).2.2
  exact absurd h2 (by decide)

/-- C5 (amended): a tool whose override sets `enabled = false` is excluded
from the tool map by aggregation, so `list-tools` lists nothing under its
qualified name and `call-tool` with that name fails with the
unknown-tool error — *provided* no other enabled tool's exposed name
(override or identity) equals that qualified name; without that proviso
an aliased enabled tool captures the call (see the counterexample). -/
theorem disabledTool_excluded (world : World) (st0 : ProxyState) (cfg : Config)
    (tcfg : ToolConfig) (n : Nat) (q : String) (o : ToolOverride)
    (hov : listMapGet q tcfg.tools = some o)
    (hdis : o.enabled = some false) :
    listMapGet q (updateBackendConnections world st0 cfg tcfg n).state.toolToClientMap = none ∧
      (∀ p ∈ (updateBackendConnections world st0 cfg tcfg n).state.toolToClientMap, p.1 ≠ q) ∧
      ((∀ p ∈ (updateBackendConnections world st0 cfg tcfg n).state.toolToClientMap,
          exposedNameOf tcfg p.1 ≠ q) →
        (∀ t ∈ handleListTools (updateBackendConnections world st0 cfg tcfg n).state,
          t.name ≠ q) ∧
        (∀ args : Option String,
          handleCallTool (updateBackendConnections world st0 cfg tcfg n).state q args =
            CallToolResult.unknownTool ("Unknown or disabled tool: " ++ q))) := by
  have hdisabled : isEnabledTool tcfg q = false := by
    simp [isEnabledTool, hov, hdis]
  have hkeys : ∀ p ∈ (updateBackendConnections world st0 cfg tcfg n).state.toolToClientMap,
      p.1 ≠ q :=
    aggregateMaps_no_disabled world tcfg (reconcileClients world st0 cfg n).clients q hdisabled
  refine ⟨(listMapGet_eq_none_iff q _).mpr hkeys, hkeys, fun hnoalias => ⟨?_, ?_⟩⟩
  · intro t ht
    rcases List.mem_map.mp ht with ⟨p, hp, rfl⟩
    exact hnoalias p hp
  · intro args
    have hct : (updateBackendConnections world st0 cfg tcfg n).state.currentToolConfig =
        tcfg := rfl
    rw [handleCallTool, hct, findRoute_eq_none tcfg q _ hnoalias]

/-- C5 witness: with `srv--ping` disabled (and no aliasing), the tool is
absent from the map and calling it fails with the unknown-tool error. -/
theorem disabledTool_excluded_witness :
    listMapGet "srv--ping" stDisabledOnly.toolToClientMap = none ∧
      handleCallTool stDisabledOnly "srv--ping" none =
        CallToolResult.unknownTool "Unknown or disabled tool: srv--ping" := by
  have h := disabledTool_excluded worldSrv initialProxyState cfgSrv tcfgDisabledOnly 0
    "srv--ping" { enabled := some false } (by decide) rfl
  exact ⟨h.1, ((h.2.2 (by decide)).2 none).trans (by decide)⟩

/-! ## C1: override round trip -/

theorem findRoute_append_of_no_match (tcfg : ToolConfig) (x : String)
    (pre l : List (String × ToolMapEntry))
    (h : ∀ p ∈ pre, exposedNameOf tcfg p.1 ≠ x) :
    findRoute tcfg x (pre ++ l) = findRoute tcfg x l := by
  induction pre with
  | nil => rfl
  | cons p rest ih =>
    rw [List.cons_append, findRoute, if_neg (h p (List.mem_cons_self p rest))]
    exact ih (fun p hp => h p (List.mem_cons_of_mem _ hp))

/-- C1 counterexample: in `stAlias` the override maps `b--u` to the
exposed name `a--t`, which is also the identity exposed name of the
earlier entry `a--t`; `call-tool("a--t")` is captured by backend `a`'s
tool `t`, so it does not route to `b--u`'s backend. -/
theorem overrideRoundTrip_counterexample : ¬ overrideRoundTripSpecAt stAlias := by
  intro h
  have h2 := (h "b--u"
    { client := { name := "b", handleId := 1 }, toolInfo := toolU } "a--t" none
    (by decide) (by decide)).2
  exact absurd h2 (by decide)

/-- C1 (amended): if the override of qualified name `q` sets a non-empty
exposed name `x`, then `list-tools` lists an entry named `x` for `q`
(with the override's description when JS-truthy, else the original, and
the original input schema), and — *provided* no tool-map entry before `q`
resolves to the same exposed name — `call-tool(x, args)` forwards to
`q`'s backend using the backend's local tool name with the caller's
arguments.  Without the first-match proviso an earlier entry captures the
call (see the counterexample). -/
theorem overrideRoundTrip_first_match (st : ProxyState)
    (pre post : List (String × ToolMapEntry)) (q : String) (entry : ToolMapEntry)
    (x : String) (args : Option String)
    (hsplit : st.toolToClientMap = pre ++ (q, entry) :: post)
    (hover : (listMapGet q st.currentToolConfig.tools).bind (fun o => o.exposedName) = some x)
    (hx : x ≠ "")
    (hfirst : ∀ p ∈ pre, exposedNameOf st.currentToolConfig p.1 ≠ x) :
    (∃ t ∈ handleListTools st,
        t.name = x ∧
        t.description =
          exposedDescriptionOf st.currentToolConfig q entry.toolInfo.description ∧
        t.inputSchema = entry.toolInfo.inputSchema) ∧
      handleCallTool st x args =
        CallToolResult.forwarded
          { client := entry.client
            toolName := entry.toolInfo.name
            callArguments := args.getD "\x7b\x7d" } := by
  have hexp : exposedNameOf st.currentToolConfig q = x := by
    rw [exposedNameOf, hover]
    simp [jsOrString, hx]
  constructor
  · refine ⟨{ name := exposedNameOf st.currentToolConfig q
              description :=
                exposedDescriptionOf st.currentToolConfig q entry.toolInfo.description
              inputSchema := entry.toolInfo.inputSchema }, ?_, by rw [hexp], rfl, rfl⟩
    rw [handleListTools, hsplit]
    exact List.mem_map_of_mem _ (List.mem_append_right pre (List.mem_cons_self _ post))
  · rw [handleCallTool, hsplit, findRoute_append_of_no_match _ _ _ _ hfirst,
      findRoute, if_pos hexp]

/-- C1 witness: the override renames `srv--ping` to `fastping`; calling
`fastping` forwards to backend `srv` with local name `ping`. -/
theorem overrideRoundTrip_first_match_witness :
    handleCallTool stRenamed "fastping" none =
      CallToolResult.forwarded
        { client := { name := "srv", handleId := 0 }
          toolName := "ping"
          callArguments := "\x7b\x7d" } ∧
      ∃ t ∈ handleListTools stRenamed, t.name = "fastping" := by
  have h := overrideRoundTrip_first_match stRenamed []
    [("srv--pong", { client := { name := "srv", handleId := 0 }, toolInfo := toolPong })]
    "srv--ping" { client := { name := "srv", handleId := 0 }, toolInfo := toolPing }
    "fastping" none (by decide) (by decide) (by decide)
    (fun p hp => absurd hp (List.not_mem_nil p))
  refine ⟨h.2.trans (by decide), ?_⟩
  rcases h.1 with ⟨t, ht, h1, _⟩
  exact ⟨t, ht, h1⟩

/-! ## C6: discovery degradation and isolation -/

theorem aggStepMaps_setToolsList_failure (w : World) (b : String)
    (r : DiscoveryOutcome Tool)
    (hr : r = DiscoveryOutcome.methodNotFound ∨ ∃ msg, r = DiscoveryOutcome.otherError msg)
    (tcfg : ToolConfig) (m : RoutingMaps) (c : ConnectedClient) :
    aggStepMaps (setToolsList w b r) tcfg m c =
      aggStepMaps (setToolsList w b (DiscoveryOutcome.ok [])) tcfg m c := by
  by_cases hc : c.name = b
  · rcases hr with rfl | ⟨msg, rfl⟩ <;>
      cases hrs : (w b).resourcesList <;> cases hps : (w b).promptsList <;>
        simp [aggStepMaps, setToolsList, hc, hrs, hps, addToolsFrom]
  · simp [aggStepMaps, setToolsList, hc]

theorem aggStepMaps_setResourcesList_failure (w : World) (b : String)
    (r : DiscoveryOutcome Resource)
    (hr : r = DiscoveryOutcome.methodNotFound ∨ ∃ msg, r = DiscoveryOutcome.otherError msg)
    (tcfg : ToolConfig) (m : RoutingMaps) (c : ConnectedClient) :
    aggStepMaps (setResourcesList w b r) tcfg m c =
      aggStepMaps (setResourcesList w b (DiscoveryOutcome.ok [])) tcfg m c := by
  by_cases hc : c.name = b
  · rcases hr with rfl | ⟨msg, rfl⟩ <;>
      cases hts : (w b).toolsList <;> cases hps : (w b).promptsList <;>
        simp [aggStepMaps, setResourcesList, hc, hts, hps]
  · simp [aggStepMaps, setResourcesList, hc]

theorem aggStepMaps_setPromptsList_failure (w : World) (b : String)
    (r : DiscoveryOutcome Prompt)
    (hr : r = DiscoveryOutcome.methodNotFound ∨ ∃ msg, r = DiscoveryOutcome.otherError msg)
    (tcfg : ToolConfig) (m : RoutingMaps) (c : ConnectedClient) :
    aggStepMaps (setPromptsList w b r) tcfg m c =
      aggStepMaps (setPromptsList w b (DiscoveryOutcome.ok [])) tcfg m c := by
  by_cases hc : c.name = b
  · rcases hr with rfl | ⟨msg, rfl⟩ <;>
      cases hts : (w b).toolsList <;> cases hrs : (w b).resourcesList <;>
        simp [aggStepMaps, setPromptsList, hc, hts, hrs]
  · simp [aggStepMaps, setPromptsList, hc]

theorem discoveryLogOf_setToolsList_mnf (w : World) (b : String) (c : ConnectedClient) :
    discoveryLogOf (setToolsList w b DiscoveryOutcome.methodNotFound) c =
      discoveryLogOf (setToolsList w b (DiscoveryOutcome.ok [])) c := by
  by_cases hc : c.name = b <;> simp [discoveryLogOf, setToolsList, hc]

theorem discoveryLogOf_setResourcesList_mnf (w : World) (b : String) (c : ConnectedClient) :
    discoveryLogOf (setResourcesList w b DiscoveryOutcome.methodNotFound) c =
      discoveryLogOf (setResourcesList w b (DiscoveryOutcome.ok [])) c := by
  by_cases hc : c.name = b <;> simp [discoveryLogOf, setResourcesList, hc]

theorem discoveryLogOf_setPromptsList_mnf (w : World) (b : String) (c : ConnectedClient) :
    discoveryLogOf (setPromptsList w b DiscoveryOutcome.methodNotFound) c =
      discoveryLogOf (setPromptsList w b (DiscoveryOutcome.ok [])) c := by
  by_cases hc : c.name = b <;> simp [discoveryLogOf, setPromptsList, hc]

/-- C6: a discovery call failing with the protocol's method-not-found
error (`-32601`) yields no entries for that backend and kind and produces
a log identical to the backend having none of that kind (in particular,
nothing is logged for it); any other discovery failure also yields no
entries for that backend and kind but logs a fetch error; in every case
the routing maps equal those of an aggregation in which the failing
backend simply reports an empty list of that kind — so every other
backend's entries are untouched — and the aggregation pass is a total
function (it never throws). -/
theorem discovery_failure_degrades (w : World) (tcfg : ToolConfig)
    (clients : List ConnectedClient) (b : String) (msg : String) :
    (aggregateMaps (setToolsList w b DiscoveryOutcome.methodNotFound) tcfg clients =
        aggregateMaps (setToolsList w b (DiscoveryOutcome.ok [])) tcfg clients ∧
      aggregateLog (setToolsList w b DiscoveryOutcome.methodNotFound) clients =
        aggregateLog (setToolsList w b (DiscoveryOutcome.ok [])) clients ∧
      aggregateMaps (setToolsList w b (DiscoveryOutcome.otherError msg)) tcfg clients =
        aggregateMaps (setToolsList w b (DiscoveryOutcome.ok [])) tcfg clients ∧
      ((∃ c ∈ clients, c.name = b) →
        LogEvent.fetchError CapKind.tools b msg ∈
          aggregateLog (setToolsList w b (DiscoveryOutcome.otherError msg)) clients)) ∧
    (aggregateMaps (setResourcesList w b DiscoveryOutcome.methodNotFound) tcfg clients =
        aggregateMaps (setResourcesList w b (DiscoveryOutcome.ok [])) tcfg clients ∧
      aggregateLog (setResourcesList w b DiscoveryOutcome.methodNotFound) clients =
        aggregateLog (setResourcesList w b (DiscoveryOutcome.ok [])) clients ∧
      aggregateMaps (setResourcesList w b (DiscoveryOutcome.otherError msg)) tcfg clients =
        aggregateMaps (setResourcesList w b (DiscoveryOutcome.ok [])) tcfg clients ∧
      ((∃ c ∈ clients, c.name = b) →
        LogEvent.fetchError CapKind.resources b msg ∈
          aggregateLog (setResourcesList w b (DiscoveryOutcome.otherError msg)) clients)) ∧
    (aggregateMaps (setPromptsList w b DiscoveryOutcome.methodNotFound) tcfg clients =
        aggregateMaps (setPromptsList w b (DiscoveryOutcome.ok [])) tcfg clients ∧
      aggregateLog (setPromptsList w b DiscoveryOutcome.methodNotFound) clients =
        aggregateLog (setPromptsList w b (DiscoveryOutcome.ok [])) clients ∧
      aggregateMaps (setPromptsList w b (DiscoveryOutcome.otherError msg)) tcfg clients =
        aggregateMaps (setPromptsList w b (DiscoveryOutcome.ok [])) tcfg clients ∧
      ((∃ c ∈ clients, c.name = b) →
        LogEvent.fetchError CapKind.prompts b msg ∈
          aggregateLog (setPromptsList w b (DiscoveryOutcome.otherError msg)) clients)) := by
  refine ⟨⟨?_, ?_, ?_, ?_⟩, ⟨?_, ?_, ?_, ?_⟩, ⟨?_, ?_, ?_, ?_⟩⟩
  · exact List.foldl_ext _ _ emptyMaps
      (fun m c _ => aggStepMaps_setToolsList_failure w b _ (Or.inl rfl) tcfg m c)
  · exact congrArg List.flatten
      (List.map_congr_left (fun c _ => discoveryLogOf_setToolsList_mnf w b c))
  · exact List.foldl_ext _ _ emptyMaps
      (fun m c _ => aggStepMaps_setToolsList_failure w b _ (Or.inr ⟨msg, rfl⟩) tcfg m c)
  · rintro ⟨c, hc, hceq⟩
    refine List.mem_flatten.mpr
      ⟨discoveryLogOf (setToolsList w b (DiscoveryOutcome.otherError msg)) c,
        List.mem_map_of_mem _ hc, ?_⟩
    simp [discoveryLogOf, setToolsList, hceq]
  · exact List.foldl_ext _ _ emptyMaps
      (fun m c _ => aggStepMaps_setResourcesList_failure w b _ (Or.inl rfl) tcfg m c)
  · exact congrArg List.flatten
      (List.map_congr_left (fun c _ => discoveryLogOf_setResourcesList_mnf w b c))
  · exact List.foldl_ext _ _ emptyMaps
      (fun m c _ => aggStepMaps_setResourcesList_failure w b _ (Or.inr ⟨msg, rfl⟩) tcfg m c)
  · rintro ⟨c, hc, hceq⟩
    refine List.mem_flatten.mpr
      ⟨discoveryLogOf (setResourcesList w b (DiscoveryOutcome.otherError msg)) c,
        List.mem_map_of_mem _ hc, ?_⟩
    simp [discoveryLogOf, setResourcesList, hceq]
  · exact List.foldl_ext _ _ emptyMaps
      (fun m c _ => aggStepMaps_setPromptsList_failure w b _ (Or.inl rfl) tcfg m c)
  · exact congrArg List.flatten
      (List.map_congr_left (fun c _ => discoveryLogOf_setPromptsList_mnf w b c))
  · exact List.foldl_ext _ _ emptyMaps
      (fun m c _ => aggStepMaps_setPromptsList_failure w b _ (Or.inr ⟨msg, rfl⟩) tcfg m c)
  · rintro ⟨c, hc, hceq⟩
    refine List.mem_flatten.mpr
      ⟨discoveryLogOf (setPromptsList w b (DiscoveryOutcome.otherError msg)) c,
        List.mem_map_of_mem _ hc, ?_⟩
    simp [discoveryLogOf, setPromptsList, hceq]

/-- C6 witness: backend `srv` with a failing `tools/list` contributes no
tool entries (the maps equal the empty-list aggregation) and the failure
is logged. -/
theorem discovery_failure_degrades_witness :
    aggregateMaps (setToolsList worldSrv "srv" (DiscoveryOutcome.otherError "boom"))
        tcfgEmpty [{ name := "srv", handleId := 0 }] =
      aggregateMaps (setToolsList worldSrv "srv" (DiscoveryOutcome.ok [])) tcfgEmpty
        [{ name := "srv", handleId := 0 }] ∧
    LogEvent.fetchError CapKind.tools "srv" "boom" ∈
      aggregateLog (setToolsList worldSrv "srv" (DiscoveryOutcome.otherError "boom"))
        [{ name := "srv", handleId := 0 }] := by
  have h := discovery_failure_degrades worldSrv tcfgEmpty
    [{ name := "srv", handleId := 0 }] "srv" "boom"
  exact ⟨h.1.2.2.1, h.1.2.2.2 (by decide)⟩

/-! ## C2: no atomic swap of the routing maps -/

theorem getLast_cons_of_ne_nil {α : Type} (a : α) (l : List α) (h : l ≠ []) :
    (a :: l).getLast? = l.getLast? := by
  cases l with
  | nil => exact absurd rfl h
  | cons b t => rfl

theorem aggPrefixMaps_ne_nil (w : World) (tcfg : ToolConfig) (m : RoutingMaps)
    (cs : List ConnectedClient) : aggPrefixMaps w tcfg m cs ≠ [] := by
  cases cs <;> simp [aggPrefixMaps]

theorem mem_aggPrefixMaps_self (w : World) (tcfg : ToolConfig) (m : RoutingMaps)
    (cs : List ConnectedClient) : m ∈ aggPrefixMaps w tcfg m cs := by
  cases cs <;> simp [aggPrefixMaps]

theorem aggPrefixMaps_getLast (w : World) (tcfg : ToolConfig) :
    ∀ (cs : List ConnectedClient) (m : RoutingMaps),
      (aggPrefixMaps w tcfg m cs).getLast? = some (cs.foldl (aggStepMaps w tcfg) m) := by
  intro cs
  induction cs with
  | nil => intro m; rfl
  | cons c rest ih =>
    intro m
    calc (aggPrefixMaps w tcfg m (c :: rest)).getLast?
        = (aggPrefixMaps w tcfg (aggStepMaps w tcfg m c) rest).getLast? :=
          getLast_cons_of_ne_nil _ _ (aggPrefixMaps_ne_nil w tcfg _ rest)
      _ = some (rest.foldl (aggStepMaps w tcfg) (aggStepMaps w tcfg m c)) := ih _
      _ = some ((c :: rest).foldl (aggStepMaps w tcfg) m) := by rw [List.foldl_cons]

/-- C2 counterexample: reconciling `stSrv` against the unchanged
configuration lets a concurrent reader observe the empty routing maps
(visible at the first discovery `await`, right after the `clear()`
calls), which equal neither the pre- nor the post-reconciliation
generation. -/
theorem atomicSwap_counterexample : ¬ atomicSwapSpecAt worldSrv stSrv cfgSrv tcfgEmpty 1 := by
  unfold atomicSwapSpecAt
  decide

/-- C2 (amended): a completed reconciliation leaves exactly the
post-generation maps (the last observable state is the fully rebuilt
generation, and the pre-generation is what readers see until the maps are
cleared) — but the swap is not atomic: the three maps are cleared and
rebuilt in place across `await` points, so the cleared (empty) generation
is always among the states observable by concurrent readers during the
run. -/
theorem reconcile_not_atomic (world : World) (st : ProxyState) (cfg : Config)
    (tcfg : ToolConfig) (n : Nat) :
    (reconcileObservations world st cfg tcfg n).head? = some (routingOf st) ∧
      (reconcileObservations world st cfg tcfg n).getLast? =
        some (routingOf (updateBackendConnections world st cfg tcfg n).state) ∧
      emptyMaps ∈ reconcileObservations world st cfg tcfg n := by
  refine ⟨rfl, ?_, ?_⟩
  · rw [reconcileObservations,
      getLast_cons_of_ne_nil _ _ (aggPrefixMaps_ne_nil world tcfg emptyMaps _),
      aggPrefixMaps_getLast world tcfg _ emptyMaps]
    rfl
  · exact List.mem_cons_of_mem _ (mem_aggPrefixMaps_self world tcfg emptyMaps _)

/-! ## C4: retry policy -/

theorem connectLoop_all_fail (beh : BackendBehavior) (name : String) (id : Nat)
    (h : ∀ i, beh.connectOk i = false) :
    connectLoop beh name id connectRetries 0 =
      (none,
       [LogEvent.connectAttemptFailed name 0, LogEvent.closedFailedClient name,
        LogEvent.sleptMs name connectDelayMs, LogEvent.connectAttemptFailed name 1,
        LogEvent.closedFailedClient name, LogEvent.sleptMs name connectDelayMs,
        LogEvent.connectAttemptFailed name 2]) := by
  simp [connectLoop, connectRetries, h 0, h 1, h 2]

theorem createMcpClients_append (world : World) :
    ∀ (xs ys : List (String × TransportConfig)) (n : Nat),
      createMcpClients world (xs ++ ys) n =
        ((createMcpClients world xs n).1 ++
            (createMcpClients world ys (createMcpClients world xs n).2.1).1,
          (createMcpClients world ys (createMcpClients world xs n).2.1).2.1,
          (createMcpClients world xs n).2.2 ++
            (createMcpClients world ys (createMcpClients world xs n).2.1).2.2) := by
  intro xs
  induction xs with
  | nil => intro ys n; simp [createMcpClients]
  | cons p rest ih =>
    obtain ⟨name, pc⟩ := p
    intro ys n
    by_cases htr : (world name).transportOk
    · cases hr : (connectLoop (world name) name n connectRetries 0).1 with
      | some c => simp [createMcpClients, htr, hr, ih, List.append_assoc]
      | none => simp [createMcpClients, htr, hr, ih, List.append_assoc]
    · simp [createMcpClients, htr, ih, List.append_assoc]

/-- C4: a backend whose transport builds but whose handshake always fails
gets exactly 3 connection attempts, with the failed client handle closed
and a 2.5-second (2500 ms) wait between consecutive attempts, and
contributes no connected client; and its presence anywhere in the backend
record leaves the clients produced for the surrounding backends exactly
as if it were absent. -/
theorem retry_policy (world : World) (nm : String) (tc : TransportConfig)
    (pre post : List (String × TransportConfig)) (n0 : Nat)
    (htr : (world nm).transportOk = true)
    (hfail : ∀ i, (world nm).connectOk i = false) :
    createMcpClients world [(nm, tc)] n0 =
      ([], n0,
       [LogEvent.connectAttemptFailed nm 0, LogEvent.closedFailedClient nm,
        LogEvent.sleptMs nm connectDelayMs, LogEvent.connectAttemptFailed nm 1,
        LogEvent.closedFailedClient nm, LogEvent.sleptMs nm connectDelayMs,
        LogEvent.connectAttemptFailed nm 2]) ∧
      (createMcpClients world (pre ++ (nm, tc) :: post) n0).1 =
        (createMcpClients world pre n0).1 ++
          (createMcpClients world post (createMcpClients world pre n0).2.1).1 := by
  have hsingle : ∀ k, createMcpClients world [(nm, tc)] k =
      ([], k,
       [LogEvent.connectAttemptFailed nm 0, LogEvent.closedFailedClient nm,
        LogEvent.sleptMs nm connectDelayMs, LogEvent.connectAttemptFailed nm 1,
        LogEvent.closedFailedClient nm, LogEvent.sleptMs nm connectDelayMs,
        LogEvent.connectAttemptFailed nm 2]) := by
    intro k
    simp [createMcpClients, htr, connectLoop_all_fail (world nm) nm k hfail]
  refine ⟨hsingle n0, ?_⟩
  have hA := createMcpClients_append world pre ((nm, tc) :: post) n0
  have hB := createMcpClients_append world [(nm, tc)] post
    (createMcpClients world pre n0).2.1
  rw [hA]
  show (createMcpClients world pre n0).1 ++
      (createMcpClients world ([(nm, tc)] ++ post) (createMcpClients world pre n0).2.1).1 = _
  rw [hB, hsingle]
  simp

/-- C4 witness: backend `x` (always failing) produces the exact 3-attempt
trace and no client, while its siblings `a` and `b` connect normally. -/
theorem retry_policy_witness :
    createMcpClients worldAB [("x", { active := none })] 0 =
      ([], 0,
       [LogEvent.connectAttemptFailed "x" 0, LogEvent.closedFailedClient "x",
        LogEvent.sleptMs "x" 2500, LogEvent.connectAttemptFailed "x" 1,
        LogEvent.closedFailedClient "x", LogEvent.sleptMs "x" 2500,
        LogEvent.connectAttemptFailed "x" 2]) ∧
      (createMcpClients worldAB
        [("a", { active := none }), ("x", { active := none }), ("b", { active := none })]
        0).1 =
        [{ name := "a", handleId := 0 }, { name := "b", handleId := 1 }] := by
  have h := retry_policy worldAB "x" { active := none } [("a", { active := none })]
    [("b", { active := none })] 0 (by decide) (fun i => rfl)
  exact ⟨h.1.trans (by decide), h.2.trans (by decide)⟩

/-! ## C3: reconciliation idempotence -/

theorem connectLoop_clients_char (beh : BackendBehavior) (name : String) (id : Nat) :
    (connectLoop beh name id connectRetries 0).1 =
      if beh.connectOk 0 || beh.connectOk 1 || beh.connectOk 2 then
        some { name := name, handleId := id }
      else none := by
  cases h0 : beh.connectOk 0 <;> cases h1 : beh.connectOk 1 <;> cases h2 : beh.connectOk 2 <;>
    simp [connectLoop, connectRetries, h0, h1, h2]

theorem createMcpClients_nil_of_fail (world : World) :
    ∀ (entries : List (String × TransportConfig)) (n : Nat),
      (∀ p ∈ entries, connectSucceeds world p.1 = false) →
      (createMcpClients world entries n).1 = [] := by
  intro entries
  induction entries with
  | nil => intro n _; rfl
  | cons p rest ih =>
    obtain ⟨name, pc⟩ := p
    intro n h
    have hp : connectSucceeds world name = false := h (name, pc) (List.mem_cons_self _ rest)
    have hrest : ∀ q ∈ rest, connectSucceeds world q.1 = false :=
      fun q hq => h q (List.mem_cons_of_mem _ hq)
    by_cases htr : (world name).transportOk
    · have hor : ((world name).connectOk 0 || (world name).connectOk 1 ||
          (world name).connectOk 2) = false := by
        unfold connectSucceeds at hp
        rw [htr] at hp
        simpa using hp
      have hloop : (connectLoop (world name) name n connectRetries 0).1 = none := by
        rw [connectLoop_clients_char, hor]
        rfl
      simpa [createMcpClients, htr, hloop] using ih n hrest
    · simpa [createMcpClients, htr] using ih n hrest

theorem name_mem_createMcpClients (world : World) :
    ∀ (entries : List (String × TransportConfig)) (n : Nat) (nm : String),
      (∃ pc, (nm, pc) ∈ entries) → connectSucceeds world nm = true →
      nm ∈ (createMcpClients world entries n).1.map (fun c => c.name) := by
  intro entries
  induction entries with
  | nil => rintro n nm ⟨pc, hpc⟩; exact absurd hpc (List.not_mem_nil _)
  | cons p rest ih =>
    obtain ⟨a, ac⟩ := p
    rintro n nm ⟨pc, hpc⟩ hs
    rcases List.mem_cons.mp hpc with hhead | htail
    · have hnm : nm = a := congrArg Prod.fst hhead
      subst hnm
      have hand : (world nm).transportOk = true ∧
          ((world nm).connectOk 0 || (world nm).connectOk 1 || (world nm).connectOk 2) = true := by
        simpa [connectSucceeds, Bool.and_eq_true] using hs
      have hloop : (connectLoop (world nm) nm n connectRetries 0).1 =
          some { name := nm, handleId := n } := by
        rw [connectLoop_clients_char, hand.2]
        rfl
      simp [createMcpClients, hand.1, hloop]
    · by_cases htr : (world a).transportOk
      · cases hr : (connectLoop (world a) a n connectRetries 0).1 with
        | some c =>
          have := ih (n + 1) nm ⟨pc, htail⟩ hs
          simpa [createMcpClients, htr, hr] using Or.inr this
        | none =>
          have := ih n nm ⟨pc, htail⟩ hs
          simpa [createMcpClients, htr, hr] using this
      · have := ih n nm ⟨pc, htail⟩ hs
        simpa [createMcpClients, htr] using this

theorem createMcpClients_names_sub (world : World) :
    ∀ (entries : List (String × TransportConfig)) (n : Nat) (c : ConnectedClient),
      c ∈ (createMcpClients world entries n).1 → c.name ∈ entries.map (fun p => p.1) := by
  intro entries
  induction entries with
  | nil => intro n c hc; exact absurd hc (List.not_mem_nil c)
  | cons p rest ih =>
    obtain ⟨a, ac⟩ := p
    intro n c hc
    by_cases htr : (world a).transportOk
    · cases hr : (connectLoop (world a) a n connectRetries 0).1 with
      | some c0 =>
        have hc' : c ∈ c0 :: (createMcpClients world rest (n + 1)).1 := by
          simpa [createMcpClients, htr, hr] using hc
        rcases List.mem_cons.mp hc' with rfl | hmem
        · rw [connectLoop_clients_char] at hr
          by_cases hor : ((world a).connectOk 0 || (world a).connectOk 1 ||
              (world a).connectOk 2) = true
          · rw [hor] at hr
            have : c = { name := a, handleId := n } := by
              simpa using (Option.some.injEq _ _ ▸ hr).symm
            rw [this]
            exact List.mem_cons_self _ _
          · rw [Bool.not_eq_true] at hor
            rw [hor] at hr
            exact absurd hr (by simp)
        · exact List.mem_cons_of_mem _ (ih (n + 1) c hmem)
      | none =>
        have hc' : c ∈ (createMcpClients world rest n).1 := by
          simpa [createMcpClients, htr, hr] using hc
        exact List.mem_cons_of_mem _ (ih n c hc')
    · have hc' : c ∈ (createMcpClients world rest n).1 := by
        simpa [createMcpClients, htr] using hc
      exact List.mem_cons_of_mem _ (ih n c hc')

/-- A connection-phase event concerns one backend name in one of the five
connection-related forms. -/
def connectEventForms (nm : String) (e : LogEvent) : Prop :=
  e = LogEvent.transportUnavailable nm ∨ e = LogEvent.connected nm ∨
    (∃ k, e = LogEvent.connectAttemptFailed nm k) ∨ e = LogEvent.closedFailedClient nm ∨
    e = LogEvent.sleptMs nm connectDelayMs

theorem connectLoop_events_shape (beh : BackendBehavior) (name : String) (id : Nat) :
    ∀ (fuel attempt : Nat) (e : LogEvent),
      e ∈ (connectLoop beh name id fuel attempt).2 → connectEventForms name e := by
  intro fuel
  induction fuel with
  | zero => intro attempt e he; simp [connectLoop] at he
  | succ f ih =>
    intro attempt e he
    by_cases hc : beh.connectOk attempt
    · have : e = LogEvent.connected name := by simpa [connectLoop, hc] using he
      exact Or.inr (Or.inl this)
    · by_cases hlt : attempt + 1 < connectRetries
      · have he' : e = LogEvent.connectAttemptFailed name attempt ∨
            e = LogEvent.closedFailedClient name ∨
            e = LogEvent.sleptMs name connectDelayMs ∨
            e ∈ (connectLoop beh name id f (attempt + 1)).2 := by
          simpa [connectLoop, hc, hlt] using he
        rcases he' with rfl | rfl | rfl | hmem
        · exact Or.inr (Or.inr (Or.inl ⟨attempt, rfl⟩))
        · exact Or.inr (Or.inr (Or.inr (Or.inl rfl)))
        · exact Or.inr (Or.inr (Or.inr (Or.inr rfl)))
        · exact ih (attempt + 1) e hmem
      · have : e = LogEvent.connectAttemptFailed name attempt := by
          simpa [connectLoop, hc, hlt] using he
        exact Or.inr (Or.inr (Or.inl ⟨attempt, this⟩))

theorem createMcpClients_events_shape (world : World) :
    ∀ (entries : List (String × TransportConfig)) (n : Nat) (e : LogEvent),
      e ∈ (createMcpClients world entries n).2.2 →
      ∃ nm, nm ∈ entries.map (fun p => p.1) ∧ connectEventForms nm e := by
  intro entries
  induction entries with
  | nil => intro n e he; simp [createMcpClients] at he
  | cons p rest ih =>
    obtain ⟨a, ac⟩ := p
    intro n e he
    by_cases htr : (world a).transportOk
    · cases hr : (connectLoop (world a) a n connectRetries 0).1 with
      | some c0 =>
        have he' : e ∈ (connectLoop (world a) a n connectRetries 0).2 ∨
            e ∈ (createMcpClients world rest (n + 1)).2.2 := by
          simpa [createMcpClients, htr, hr] using he
        rcases he' with hmem | hmem
        · exact ⟨a, List.mem_cons_self _ _,
            connectLoop_events_shape (world a) a n connectRetries 0 e hmem⟩
        · rcases ih (n + 1) e hmem with ⟨nm, hnm, hform⟩
          exact ⟨nm, List.mem_cons_of_mem _ hnm, hform⟩
      | none =>
        have he' : e ∈ (connectLoop (world a) a n connectRetries 0).2 ∨
            e ∈ (createMcpClients world rest n).2.2 := by
          simpa [createMcpClients, htr, hr] using he
        rcases he' with hmem | hmem
        · exact ⟨a, List.mem_cons_self _ _,
            connectLoop_events_shape (world a) a n connectRetries 0 e hmem⟩
        · rcases ih n e hmem with ⟨nm, hnm, hform⟩
          exact ⟨nm, List.mem_cons_of_mem _ hnm, hform⟩
    · have he' : e = LogEvent.transportUnavailable a ∨
          e ∈ (createMcpClients world rest n).2.2 := by
        simpa [createMcpClients, htr] using he
      rcases he' with rfl | hmem
      · exact ⟨a, List.mem_cons_self _ _, Or.inl rfl⟩
      · rcases ih n e hmem with ⟨nm, hnm, hform⟩
        exact ⟨nm, List.mem_cons_of_mem _ hnm, hform⟩

theorem aggregateLog_shape (world : World) (clients : List ConnectedClient) (e : LogEvent)
    (he : e ∈ aggregateLog world clients) : ∃ k nm msg, e = LogEvent.fetchError k nm msg := by
  rcases List.mem_flatten.mp he with ⟨l, hl, hel⟩
  rcases List.mem_map.mp hl with ⟨c, _, rfl⟩
  have hparts : e ∈ (match (world c.name).toolsList with
      | DiscoveryOutcome.otherError msg => [LogEvent.fetchError CapKind.tools c.name msg]
      | _ => []) ∨
      e ∈ (match (world c.name).resourcesList with
      | DiscoveryOutcome.otherError msg => [LogEvent.fetchError CapKind.resources c.name msg]
      | _ => []) ∨
      e ∈ (match (world c.name).promptsList with
      | DiscoveryOutcome.otherError msg => [LogEvent.fetchError CapKind.prompts c.name msg]
      | _ => []) := by
    simpa [discoveryLogOf, List.mem_append, or_assoc] using hel
  rcases hparts with hm | hm | hm
  · cases hts : (world c.name).toolsList <;> rw [hts] at hm <;> simp at hm
    exact ⟨CapKind.tools, c.name, _, hm⟩
  · cases hts : (world c.name).resourcesList <;> rw [hts] at hm <;> simp at hm
    exact ⟨CapKind.resources, c.name, _, hm⟩
  · cases hts : (world c.name).promptsList <;> rw [hts] at hm <;> simp at hm
    exact ⟨CapKind.prompts, c.name, _, hm⟩

theorem mem_reconcileClients_name (world : World) (st : ProxyState) (cfg : Config) (n : Nat) :
    ∀ c ∈ (reconcileClients world st cfg n).clients, c.name ∈ newClientKeysOf cfg := by
  intro c hc
  simp only [reconcileClients] at hc
  rcases List.mem_append.mp hc with h | h
  · exact of_decide_eq_true (List.mem_filter.mp h).2
  · have hsub := createMcpClients_names_sub world _ n c h
    rcases List.mem_map.mp hsub with ⟨p, hp, hpn⟩
    have hpA : p ∈ activeServers cfg := (List.mem_filter.mp hp).1
    exact hpn ▸ List.mem_map_of_mem _ hpA

theorem succeeds_mem_reconcile_names (world : World) (st : ProxyState) (cfg : Config)
    (n : Nat) (k : String) (hK : k ∈ newClientKeysOf cfg)
    (hnot : k ∉ st.currentConnectedClients.map (fun c => c.name))
    (hs : connectSucceeds world k = true) :
    k ∈ (reconcileClients world st cfg n).clients.map (fun c => c.name) := by
  have hkAdd : k ∈ keysToAddOf st cfg := List.mem_filter.mpr ⟨hK, decide_eq_true hnot⟩
  rcases List.mem_map.mp hK with ⟨p, hp, hpk⟩
  have hpAdd : p ∈ configToAddOf st cfg :=
    List.mem_filter.mpr ⟨hp, decide_eq_true (hpk ▸ hkAdd)⟩
  have hmem := name_mem_createMcpClients world (configToAddOf st cfg) n k
    ⟨p.2, by rw [← hpk]; exact hpAdd⟩ hs
  simp only [reconcileClients, List.map_append]
  exact List.mem_append_right _ hmem

/-- C3: running `updateBackendConnections` a second time with the same
configuration (and the same backend behaviour) leaves the proxy state —
connected-client list, all three routing maps, and stored tool
configuration — exactly unchanged, and during the second run no kept
backend is cleaned up or reconnected: the log of the second run contains
no cleanup event and no connection (attempt or success) event for any
connected backend. -/
theorem reconcile_idempotent (world : World) (st0 : ProxyState) (cfg : Config)
    (tcfg : ToolConfig) (n0 n1 : Nat) :
    (updateBackendConnections world (updateBackendConnections world st0 cfg tcfg n0).state
        cfg tcfg n1).state = (updateBackendConnections world st0 cfg tcfg n0).state ∧
      (∀ c ∈ (updateBackendConnections world st0 cfg tcfg n0).state.currentConnectedClients,
        LogEvent.cleanedUp c.name ∉
            (updateBackendConnections world (updateBackendConnections world st0 cfg tcfg n0).state
              cfg tcfg n1).log ∧
          LogEvent.connected c.name ∉
            (updateBackendConnections world (updateBackendConnections world st0 cfg tcfg n0).state
              cfg tcfg n1).log ∧
          (∀ k, LogEvent.connectAttemptFailed c.name k ∉
            (updateBackendConnections world (updateBackendConnections world st0 cfg tcfg n0).state
              cfg tcfg n1).log)) := by
  have hsub1 : ∀ c ∈ (updateBackendConnections world st0 cfg tcfg n0).state.currentConnectedClients,
      c.name ∈ newClientKeysOf cfg :=
    fun c hc => mem_reconcileClients_name world st0 cfg n0 c hc
  have hkeep2 : clientsToKeepOf (updateBackendConnections world st0 cfg tcfg n0).state cfg =
      (updateBackendConnections world st0 cfg tcfg n0).state.currentConnectedClients :=
    List.filter_eq_self.mpr (fun c hc => decide_eq_true (hsub1 c hc))
  have hrm2 : clientsToRemoveOf (updateBackendConnections world st0 cfg tcfg n0).state cfg = [] :=
    List.filter_eq_nil_iff.mpr (fun c hc => by simpa using hsub1 c hc)
  have hfail2 : ∀ p ∈ configToAddOf (updateBackendConnections world st0 cfg tcfg n0).state cfg,
      connectSucceeds world p.1 = false := by
    intro p hp
    have hkAdd : p.1 ∈ keysToAddOf (updateBackendConnections world st0 cfg tcfg n0).state cfg :=
      of_decide_eq_true (List.mem_filter.mp hp).2
    have hkK : p.1 ∈ newClientKeysOf cfg := (List.mem_filter.mp hkAdd).1
    have hnot1 : p.1 ∉
        (updateBackendConnections world st0 cfg tcfg n0).state.currentConnectedClients.map
          (fun c => c.name) :=
      of_decide_eq_true (List.mem_filter.mp hkAdd).2
    by_contra hcon
    have hs : connectSucceeds world p.1 = true := by
      cases h : connectSucceeds world p.1
      · exact absurd h hcon
      · rfl
    have hnot0 : p.1 ∉ st0.currentConnectedClients.map (fun c => c.name) := by
      intro hmem
      rcases List.mem_map.mp hmem with ⟨c0, hc0, hc0n⟩
      have hc0keep : c0 ∈ clientsToKeepOf st0 cfg :=
        List.mem_filter.mpr ⟨hc0, decide_eq_true (hc0n ▸ hkK)⟩
      have hc0st1 : c0 ∈
          (updateBackendConnections world st0 cfg tcfg n0).state.currentConnectedClients := by
        show c0 ∈ (reconcileClients world st0 cfg n0).clients
        simp only [reconcileClients]
        exact List.mem_append_left _ hc0keep
      exact hnot1 (List.mem_map.mpr ⟨c0, hc0st1, hc0n⟩)
    exact hnot1 (succeeds_mem_reconcile_names world st0 cfg n0 p.1 hkK hnot0 hs)
  have hnew2 : (createMcpClients world
      (configToAddOf (updateBackendConnections world st0 cfg tcfg n0).state cfg) n1).1 = [] :=
    createMcpClients_nil_of_fail world _ n1 hfail2
  have hclients2 : (reconcileClients world (updateBackendConnections world st0 cfg tcfg n0).state
      cfg n1).clients =
      (updateBackendConnections world st0 cfg tcfg n0).state.currentConnectedClients := by
    simp only [reconcileClients]
    rw [hkeep2, hnew2, List.append_nil]
  have hnameNotAdd : ∀ nm, nm ∈
      (configToAddOf (updateBackendConnections world st0 cfg tcfg n0).state cfg).map
        (fun p => p.1) →
      nm ∉ (updateBackendConnections world st0 cfg tcfg n0).state.currentConnectedClients.map
        (fun c => c.name) := by
    intro nm hnm
    rcases List.mem_map.mp hnm with ⟨p, hp, rfl⟩
    have hkAdd : p.1 ∈ keysToAddOf (updateBackendConnections world st0 cfg tcfg n0).state cfg :=
      of_decide_eq_true (List.mem_filter.mp hp).2
    exact of_decide_eq_true (List.mem_filter.mp hkAdd).2
  have hlog2 : (updateBackendConnections world
      (updateBackendConnections world st0 cfg tcfg n0).state cfg tcfg n1).log =
      (createMcpClients world
          (configToAddOf (updateBackendConnections world st0 cfg tcfg n0).state cfg) n1).2.2 ++
        aggregateLog world
          (reconcileClients world (updateBackendConnections world st0 cfg tcfg n0).state
            cfg n1).clients := by
    show ((clientsToRemoveOf (updateBackendConnections world st0 cfg tcfg n0).state cfg).map
          (fun c => LogEvent.cleanedUp c.name) ++
        (createMcpClients world
          (configToAddOf (updateBackendConnections world st0 cfg tcfg n0).state cfg) n1).2.2) ++
        aggregateLog world
          (reconcileClients world (updateBackendConnections world st0 cfg tcfg n0).state
            cfg n1).clients = _
    rw [hrm2]
    simp
  constructor
  · have hstate2 : (updateBackendConnections world
        (updateBackendConnections world st0 cfg tcfg n0).state cfg tcfg n1).state =
        { currentConnectedClients :=
            (reconcileClients world (updateBackendConnections world st0 cfg tcfg n0).state
              cfg n1).clients
          toolToClientMap := (aggregateMaps world tcfg
            (reconcileClients world (updateBackendConnections world st0 cfg tcfg n0).state
              cfg n1).clients).toolMap
          resourceToClientMap := (aggregateMaps world tcfg
            (reconcileClients world (updateBackendConnections world st0 cfg tcfg n0).state
              cfg n1).clients).resourceMap
          promptToClientMap := (aggregateMaps world tcfg
            (reconcileClients world (updateBackendConnections world st0 cfg tcfg n0).state
              cfg n1).clients).promptMap
          currentToolConfig := tcfg } := rfl
    rw [hstate2, hclients2]
    rfl
  · intro c hc
    have hcname : c.name ∈
        (updateBackendConnections world st0 cfg tcfg n0).state.currentConnectedClients.map
          (fun c => c.name) := List.mem_map_of_mem _ hc
    refine ⟨?_, ?_, ?_⟩
    · intro habs
      rw [hlog2] at habs
      rcases List.mem_append.mp habs with h | h
      · rcases createMcpClients_events_shape world _ n1 _ h with ⟨nm, _, hform⟩
        rcases hform with h1 | h1 | ⟨k, h1⟩ | h1 | h1 <;> simp at h1
      · rcases aggregateLog_shape world _ _ h with ⟨k', nm, msg, h1⟩
        simp at h1
    · intro habs
      rw [hlog2] at habs
      rcases List.mem_append.mp habs with h | h
      · rcases createMcpClients_events_shape world _ n1 _ h with ⟨nm, hnm, hform⟩
        rcases hform with h1 | h1 | ⟨k, h1⟩ | h1 | h1 <;> simp at h1
        exact hnameNotAdd nm hnm (h1 ▸ hcname)
      · rcases aggregateLog_shape world _ _ h with ⟨k', nm, msg, h1⟩
        simp at h1
    · intro k habs
      rw [hlog2] at habs
      rcases List.mem_append.mp habs with h | h
      · rcases createMcpClients_events_shape world _ n1 _ h with ⟨nm, hnm, hform⟩
        rcases hform with h1 | h1 | ⟨k', h1⟩ | h1 | h1 <;> simp at h1
        exact hnameNotAdd nm hnm (h1.1 ▸ hcname)
      · rcases aggregateLog_shape world _ _ h with ⟨k', nm, msg, h1⟩
        simp at h1

/-- C3 witness: reconciling `stSrv` a second time with the unchanged
configuration returns the same state and cleans up nothing. -/
theorem reconcile_idempotent_witness :
    (updateBackendConnections worldSrv stSrv cfgSrv tcfgEmpty 1).state = stSrv ∧
      LogEvent.cleanedUp "srv" ∉ (updateBackendConnections worldSrv stSrv cfgSrv tcfgEmpty 1).log := by
  have h := reconcile_idempotent worldSrv initialProxyState cfgSrv tcfgEmpty 0 1
  exact ⟨h.1, (h.2 { name := "srv", handleId := 0 } (by decide)).1⟩

end McpProxy
